import Mathlib

/-!
Verification development for the kubecuro manifest analyzer/healer.

The Python sources under `src/kubecuro/` are shallowly embedded here:
YAML documents become the inductive type `Yaml` (decoded trees; the
`ruamel.yaml` line/comment metadata `lc` is not represented, so the
source's `get_line` helpers, which return 1 on plain data, are modelled
as the constant 1).  Python exceptions are modelled with `Except Unit`:
an access that raises (AttributeError / KeyError / TypeError /
ValueError / OverflowError) yields `.error ()`.

Modelling notes, applying throughout:
* Python's cross-type equalities (`True == 1`, `1 == 1.0`) are not
  modelled; `==` on `Yaml` is structural.
* Underscored numeric literals (`int("1_0")`) and non-ASCII digits are
  not modelled.
* IEEE-754 rounding of `float` values is approximated by exact rational
  arithmetic; overflow to infinity is modelled with the 2^1024 bound.
* Iterating a non-list (Python would iterate a dict's keys or a
  string's characters, and every caller here immediately calls `.get`
  on the element, raising on the first element of any non-empty such
  container) is collapsed to an error.
-/

set_option maxRecDepth 8192

namespace Kubecuro

/-- A decoded YAML tree, as produced by the `ruamel.yaml` loaders used in
`healer.py` and `synapse.py` (scalars, sequences, mappings).  Float
scalars are not modelled. -/
inductive Yaml where
  | nul
  | bool (b : Bool)
  | int (n : Int)
  | str (s : String)
  | arr (xs : List Yaml)
  | map (kvs : List (String × Yaml))

mutual
/-- Boolean structural equality on YAML trees. -/
def beqYaml : Yaml → Yaml → Bool
  | .nul, .nul => true
  | .bool a, .bool b => a == b
  | .int a, .int b => a == b
  | .str a, .str b => a == b
  | .arr a, .arr b => beqYamlList a b
  | .map a, .map b => beqYamlMap a b
  | _, _ => false

/-- Elementwise `beqYaml` on sequences. -/
def beqYamlList : List Yaml → List Yaml → Bool
  | [], [] => true
  | x :: xs, y :: ys => beqYaml x y && beqYamlList xs ys
  | _, _ => false

/-- Entrywise `beqYaml` on mappings. -/
def beqYamlMap : List (String × Yaml) → List (String × Yaml) → Bool
  | [], [] => true
  | (k, v) :: xs, (l, w) :: ys => k == l && beqYaml v w && beqYamlMap xs ys
  | _, _ => false
end

mutual
/-- `beqYaml` decides equality. -/
def beqYaml_iff : ∀ a b : Yaml, beqYaml a b = true ↔ a = b
  | .nul, b => by cases b <;> simp [beqYaml]
  | .bool x, b => by cases b <;> simp [beqYaml]
  | .int x, b => by cases b <;> simp [beqYaml]
  | .str x, b => by cases b <;> simp [beqYaml]
  | .arr xs, b => by
    cases b <;> simp [beqYaml]
    exact beqYamlList_iff xs _
  | .map m, b => by
    cases b <;> simp [beqYaml]
    exact beqYamlMap_iff m _

/-- `beqYamlList` decides equality. -/
def beqYamlList_iff : ∀ a b : List Yaml, beqYamlList a b = true ↔ a = b
  | [], b => by cases b <;> simp [beqYamlList]
  | x :: xs, [] => by simp [beqYamlList]
  | x :: xs, y :: ys => by
    simp [beqYamlList, beqYaml_iff x y, beqYamlList_iff xs ys]

/-- `beqYamlMap` decides equality. -/
def beqYamlMap_iff : ∀ a b : List (String × Yaml), beqYamlMap a b = true ↔ a = b
  | [], b => by cases b <;> simp [beqYamlMap]
  | x :: xs, [] => by simp [beqYamlMap]
  | (k, v) :: xs, (l, w) :: ys => by
    simp [beqYamlMap, beqYaml_iff v w, beqYamlMap_iff xs ys, Prod.ext_iff]
end

instance : BEq Yaml := ⟨beqYaml⟩

instance : LawfulBEq Yaml where
  eq_of_beq h := (beqYaml_iff _ _).1 h
  rfl := (beqYaml_iff _ _).2 rfl

instance : DecidableEq Yaml := fun a b =>
  decidable_of_iff (beqYaml a b = true) (beqYaml_iff a b)

instance {ε α : Type _} [DecidableEq ε] [DecidableEq α] : DecidableEq (Except ε α) :=
  fun a b =>
    match a, b with
    | .error e, .error f =>
      if h : e = f then isTrue (h ▸ rfl) else isFalse (fun hh => h (Except.error.inj hh))
    | .ok x, .ok y =>
      if h : x = y then isTrue (h ▸ rfl) else isFalse (fun hh => h (Except.ok.inj hh))
    | .error _, .ok _ => isFalse (fun hh => Except.noConfusion hh)
    | .ok _, .error _ => isFalse (fun hh => Except.noConfusion hh)

/-- Python truthiness (`if not x`) for decoded YAML values. -/
def truthy : Yaml → Bool
  | .nul => false
  | .bool b => b
  | .int n => n != 0
  | .str s => !s.isEmpty
  | .arr xs => !xs.isEmpty
  | .map m => !m.isEmpty

/-- A single-quote character, used when rebuilding Python message strings. -/
def sq : String := String.singleton (Char.ofNat 39)

mutual
/-- Python `repr` of a decoded YAML value (best effort; used only inside
`str()` of containers, which the analysed rules never parse back). -/
def pyRepr : Yaml → String
  | .nul => "None"
  | .bool true => "True"
  | .bool false => "False"
  | .int n => toString n
  | .str s => sq ++ s ++ sq
  | .arr xs => "[" ++ pyReprList xs ++ "]"
  | .map m => "\x7b" ++ pyReprMap m ++ "\x7d"

/-- Comma-joined reprs of a list's elements. -/
def pyReprList : List Yaml → String
  | [] => ""
  | [x] => pyRepr x
  | x :: xs => pyRepr x ++ ", " ++ pyReprList xs

/-- Comma-joined reprs of a dict's entries. -/
def pyReprMap : List (String × Yaml) → String
  | [] => ""
  | [(k, v)] => sq ++ k ++ sq ++ ": " ++ pyRepr v
  | (k, v) :: m => sq ++ k ++ sq ++ ": " ++ pyRepr v ++ ", " ++ pyReprMap m
end

/-- Python `str()` of a decoded YAML value. -/
def pyStr : Yaml → String
  | .nul => "None"
  | .bool true => "True"
  | .bool false => "False"
  | .int n => toString n
  | .str s => s
  | .arr xs => "[" ++ pyReprList xs ++ "]"
  | .map m => "\x7b" ++ pyReprMap m ++ "\x7d"

/-- Is the first character list a prefix of the second? -/
def listStartsWith : List Char → List Char → Bool
  | [], _ => true
  | _ :: _, [] => false
  | a :: as, b :: bs => a == b && listStartsWith as bs

/-- Does the second character list contain the first as a contiguous run? -/
def listContainsSub (needle : List Char) : List Char → Bool
  | [] => listStartsWith needle []
  | c :: t => listStartsWith needle (c :: t) || listContainsSub needle t

/-- `needle in hay` for Python strings (substring test). -/
def substrOf (needle hay : String) : Bool :=
  listContainsSub needle.toList hay.toList

/-- `d.get(k)`: `.error` when the receiver is not a mapping
(AttributeError in Python), otherwise the optional stored value. -/
def Yaml.getE (v : Yaml) (k : String) : Except Unit (Option Yaml) :=
  match v with
  | .map m => .ok (m.lookup k)
  | _ => .error ()

/-- `d.get(k, dflt)`. -/
def Yaml.getDE (v : Yaml) (k : String) (dflt : Yaml) : Except Unit Yaml := do
  pure ((← v.getE k).getD dflt)

/-- `d[k]` on a mapping: KeyError (and TypeError on non-mappings) are
errors. -/
def getItemE (v : Yaml) (k : String) : Except Unit Yaml :=
  match v with
  | .map m =>
    match m.lookup k with
    | some x => .ok x
    | none => .error ()
  | _ => .error ()

/-- Python `a or b` over YAML values. -/
def pyOr (a b : Yaml) : Yaml := if truthy a then a else b

/-- Python `x in container`.  Mapping: key containment (unhashable keys
raise).  List: element equality.  String: substring for string `x`,
TypeError otherwise.  Scalars: TypeError. -/
def pyInE (x container : Yaml) : Except Unit Bool :=
  match container with
  | .map m =>
    match x with
    | .str k => .ok (m.any (fun kv => kv.1 == k))
    | .arr _ => .error ()
    | .map _ => .error ()
    | _ => .ok false
  | .arr xs => .ok (xs.any (fun y => y == x))
  | .str s =>
    match x with
    | .str sub => .ok (substrOf sub s)
    | _ => .error ()
  | _ => .error ()

/-- Iterating a YAML value as a sequence (see the module comment for the
non-list collapse). -/
def asListE : Yaml → Except Unit (List Yaml)
  | .arr xs => .ok xs
  | _ => .error ()

/-- Decimal digit run to a natural number. -/
def digitsToNat (cs : List Char) : Nat :=
  cs.foldl (fun a c => a * 10 + (c.toNat - 48)) 0

/-- ASCII whitespace as stripped by Python `str.strip()` (Unicode
whitespace is not modelled). -/
def isPyWs (c : Char) : Bool :=
  c == ' ' || c == '\t' || c == '\n' || c == '\r' || c == '\x0b' || c == '\x0c'

/-- Python `str.strip()`. -/
def stripL (cs : List Char) : List Char :=
  ((cs.dropWhile isPyWs).reverse.dropWhile isPyWs).reverse

/-- Python `int(s)` on a string: optional surrounding whitespace,
optional sign, non-empty digit run; `none` is a ValueError. -/
def pyInt (s : List Char) : Option Int :=
  let core : List Char → Option Nat := fun ds =>
    if ds ≠ [] ∧ ds.all Char.isDigit then some (digitsToNat ds) else none
  match stripL s with
  | [] => (core []).map Int.ofNat
  | c :: rest =>
    if c == '+' then (core rest).map Int.ofNat
    else if c == '-' then (core rest).map (fun n => -(n : Int))
    else (core (c :: rest)).map Int.ofNat

/-- An unreduced fraction `num / den` (`den` positive by construction):
the exact-rational model of Python float values.  Kept unnormalized so
that every operation kernel-reduces. -/
abbrev Frac := Int × Nat

/-- `a ≤ b` on fractions by cross-multiplication. -/
def fracLe (a b : Frac) : Bool :=
  decide (a.1 * (b.2 : Int) ≤ b.1 * (a.2 : Int))

/-- Truncation of a fraction toward zero, as Python `int(x)` does. -/
def truncFrac (a : Frac) : Int :=
  if 0 ≤ a.1 then ((a.1.toNat / a.2 : Nat) : Int)
  else -(((-a.1).toNat / a.2 : Nat) : Int)

/-- The value of a Python float: finite (exact rational model), signed
infinity, or NaN. -/
inductive FVal where
  | fin (q : Frac)
  | inf
  | neginf
  | nan
deriving DecidableEq

/-- Magnitudes at or above this bound overflow a double to infinity
(approximate threshold: the exact IEEE cutoff is (2 - 2^-53)·2^1023). -/
def FLOAT_MAX_NAT : Nat := 2 ^ 1024

/-- Clamp an exact value into the float range. -/
def mkFloat (q : Frac) : FVal :=
  if fracLe ((FLOAT_MAX_NAT : Int), 1) q then .inf
  else if fracLe q (-(FLOAT_MAX_NAT : Int), 1) then .neginf
  else .fin q

/-- Python `float(s)` on a string: optional sign, then `inf`/`infinity`/
`nan` (case-insensitive) or a decimal literal with optional fraction and
exponent; `none` is a ValueError. -/
def pyFloat (s : List Char) : Option FVal :=
  let signed : List Char → (Bool × List Char) := fun l =>
    match l with
    | [] => (false, [])
    | c :: r => if c == '+' then (false, r) else if c == '-' then (true, r) else (false, c :: r)
  let (neg, body) := signed ((stripL s).map Char.toLower)
  if body = "inf".toList ∨ body = "infinity".toList then
    some (if neg then .neginf else .inf)
  else if body = "nan".toList then some .nan
  else
    let ip := body.takeWhile Char.isDigit
    let r1 := body.drop ip.length
    let (fp, r2) :=
      match r1 with
      | [] => ([], [])
      | c1 :: r =>
        if c1 == '.' then (r.takeWhile Char.isDigit, r.drop (r.takeWhile Char.isDigit).length)
        else ([], c1 :: r)
    if ip = [] ∧ fp = [] then none
    else
      let num : Nat := digitsToNat ip * 10 ^ fp.length + digitsToNat fp
      let mant : Frac := (if neg then -(num : Int) else (num : Int), 10 ^ fp.length)
      match r2 with
      | [] => some (mkFloat mant)
      | c2 :: r3 =>
        if c2 == 'e' then
          let (eneg, r4) := signed r3
          if r4 ≠ [] ∧ r4.all Char.isDigit then
            let ex := digitsToNat r4
            some (mkFloat
              (if eneg then (mant.1, mant.2 * 10 ^ ex) else (mant.1 * ((10 ^ ex : Nat) : Int), mant.2)))
          else none
        else none

/-- `Healer.parse_cpu` (healer.py:33-42): convert a K8s CPU quantity to
millicores.  The `int()` of a non-integer prefix before the `m` suffix
is an uncaught ValueError; only the bare-number branch catches
ValueError; an infinite `float` makes `int()` raise an uncaught
OverflowError. -/
def parse_cpu (v : Yaml) : Except Unit Int :=
  if !truthy v then .ok 0
  else
    let cs := stripL (pyStr v).toList
    if cs.getLast? == some 'm' then
      match pyInt cs.dropLast with
      | some n => .ok n
      | none => .error ()
    else
      match pyFloat cs with
      | none => .ok 0
      | some .nan => .ok 0
      | some .inf => .error ()
      | some .neginf => .error ()
      | some (.fin q) =>
        let qm : Frac := (q.1 * 1000, q.2)
        if fracLe ((FLOAT_MAX_NAT : Int), 1) qm || fracLe qm (-(FLOAT_MAX_NAT : Int), 1) then
          .error ()
        else .ok (truncFrac qm)

/-- The `units` table of `Healer.parse_mem` (healer.py:48-49); the float
entries `1/1024` are the fraction pairs with denominator 1024. -/
def memUnits : List (List Char × Frac) :=
  [("k".toList, (1, 1024)), ("m".toList, (1, 1)),
   ("g".toList, (1024, 1)), ("t".toList, (1024 * 1024, 1)),
   ("ki".toList, (1, 1024)), ("mi".toList, (1, 1)),
   ("gi".toList, (1024, 1)), ("ti".toList, (1024 * 1024, 1))]

/-- `Healer.parse_mem` (healer.py:44-53): convert a K8s memory quantity
to MiB via `re.match(r'(\d+)([a-z]*)', ...)`.  The only raising path is
`int(val) * units[unit]` for the float factors (`k`/`ki`, denominator
not 1) when `val` is too large to convert to a double (OverflowError). -/
def parse_mem (v : Yaml) : Except Unit Int :=
  if !truthy v then .ok 0
  else
    let cs := (stripL (pyStr v).toList).map Char.toLower
    let ds := cs.takeWhile Char.isDigit
    if ds = [] then .ok 0
    else
      let rest := cs.drop ds.length
      let unit := rest.takeWhile Char.isLower
      let factor : Frac := (memUnits.lookup unit).getD (1, 1)
      let val : Nat := digitsToNat ds
      if factor.2 ≠ 1 ∧ FLOAT_MAX_NAT ≤ val then .error ()
      else .ok (truncFrac ((val : Int) * factor.1, factor.2))

/-! ## Shield: severity constants, findings, deprecation table -/

/-- `Shield.CRITICAL` (shield.py:15). -/
def CRITICAL : String := "🔴 CRITICAL"

/-- `Shield.HIGH` (shield.py:16). -/
def HIGH : String := "🟠 HIGH"

/-- `Shield.MEDIUM` (shield.py:17). -/
def MEDIUM : String := "🟡 MEDIUM"

/-- `Shield.LOW` (shield.py:18). -/
def LOW : String := "🔵 INFO"

/-- The finding dict built by `Shield.add_finding` (shield.py:23-30). -/
structure Finding where
  code : String
  severity : String
  msg : String
  line : Int
deriving DecidableEq

/-- Uppercase a string (ASCII, as in the modelled inputs). -/
def upperStr (s : String) : String :=
  String.mk (s.toList.map Char.toUpper)

/-- `Shield.add_finding` (shield.py:23-30): upper-cases the code. -/
def add_finding (code severity msg : String) (line : Int) : Finding :=
  ⟨upperStr code, severity, msg, line⟩

/-- `Shield.get_line`/`Healer.get_line`: on plain decoded data (no
`ruamel` `lc` attribute, which this model does not represent) both
always return 1. -/
def get_line (_ : Yaml) : Int := 1

/-- Python `str(x)` of an optional value (`None` prints as `"None"`). -/
def optStr : Option String → String
  | some s => s
  | none => "None"

/-- Truthiness of an optional YAML value (absent is `None`, falsy). -/
def optTruthy : Option Yaml → Bool
  | none => false
  | some v => truthy v

/-- Value of a deprecation-table entry: a plain replacement or a
per-kind mapping. -/
inductive DepVal where
  | plain (s : String)
  | byKind (m : List (String × String))
deriving DecidableEq

/-- `Shield.DEPRECATIONS` (shield.py:33-56), verbatim. -/
def DEPRECATIONS : List (String × DepVal) :=
  [("extensions/v1beta1", .byKind
      [("Ingress", "networking.k8s.io/v1"),
       ("Deployment", "apps/v1"),
       ("DaemonSet", "apps/v1"),
       ("ReplicaSet", "apps/v1"),
       ("NetworkPolicy", "networking.k8s.io/v1"),
       ("PodSecurityPolicy", "REMOVED (Use Admission Controllers)"),
       ("default", "apps/v1")]),
   ("networking.k8s.io/v1beta1", .plain "networking.k8s.io/v1"),
   ("policy/v1beta1", .plain "policy/v1"),
   ("rbac.authorization.k8s.io/v1beta1", .plain "rbac.authorization.k8s.io/v1"),
   ("autoscaling/v2beta1", .plain "autoscaling/v2"),
   ("autoscaling/v2beta2", .plain "autoscaling/v2"),
   ("admissionregistration.k8s.io/v1beta1", .plain "admissionregistration.k8s.io/v1"),
   ("apiextensions.k8s.io/v1beta1", .plain "apiextensions.k8s.io/v1"),
   ("storage.k8s.io/v1beta1", .plain "storage.k8s.io/v1"),
   ("scheduling.k8s.io/v1beta1", .plain "scheduling.k8s.io/v1"),
   ("node.k8s.io/v1beta1", .plain "node.k8s.io/v1"),
   ("discovery.k8s.io/v1beta1", .plain "discovery.k8s.io/v1"),
   ("flowcontrol.apiserver.k8s.io/v1beta2", .plain "flowcontrol.apiserver.k8s.io/v1beta3"),
   ("apiregistration.k8s.io/v1beta1", .plain "apiregistration.k8s.io/v1")]

/-- `mapping.get(kind, mapping.get("default")) if isinstance(mapping, dict)
else mapping` (shield.py:202, healer.py:215): the per-kind entry when the
kind is a string key of the mapping, else the `default` entry, else the
plain value. -/
def depTarget (mapping : DepVal) (kind : Option Yaml) : Option String :=
  match mapping with
  | .plain s => some s
  | .byKind m =>
    match kind with
    | some (.str k) => (m.lookup k).orElse fun _ => m.lookup "default"
    | _ => m.lookup "default"

/-- The API-deprecation section of `Shield.check_version_and_security`
(shield.py:194-208): one `API_DEPRECATED`, `MEDIUM` finding when the
document's `apiVersion` is a key of the table, else none. -/
def deprecationFinding (doc : Yaml) : Except Unit (Option Finding) := do
  let api ← doc.getE "apiVersion"
  let kind ← doc.getDE "kind" (.str "Object")
  let md ← doc.getDE "metadata" (.map [])
  let name ← md.getDE "name" (.str "unknown")
  match api with
  | some (.str a) =>
    match DEPRECATIONS.lookup a with
    | some mapping =>
      let better := depTarget mapping (some kind)
      pure (some (add_finding "API_DEPRECATED" MEDIUM
        ("🛡️ " ++ pyStr kind ++ " " ++ sq ++ pyStr name ++ sq ++ " uses " ++ sq ++ a ++ sq
          ++ ". Upgrade to " ++ sq ++ optStr better ++ sq ++ ".")
        (get_line doc)))
    | none => pure none
  | _ => pure none

/-- Python `d[k] = x` on a dict: replace in place, else append. -/
def setAssoc : List (String × Yaml) → String → Yaml → List (String × Yaml)
  | [], k, x => [(k, x)]
  | (k1, v1) :: rest, k, x =>
    if k1 == k then (k, x) :: rest else (k1, v1) :: setAssoc rest k x

/-- `v[k] = x`; TypeError on non-mappings. -/
def setKeyE (v : Yaml) (k : String) (x : Yaml) : Except Unit Yaml :=
  match v with
  | .map m => .ok (.map (setAssoc m k x))
  | _ => .error ()

/-- The API-migration fix block of `Healer.heal_file` (healer.py:211-222)
with `apply_fixes = True`: overwrite a deprecated `apiVersion` with its
replacement unless the target is falsy or starts with `REMOVED`; for a
`Deployment` migrated to `apps/v1` without a `spec.selector`, inject one
from the template labels.  The `detected_codes` bookkeeping is not
modelled. -/
def applyApiFix (parsed : Yaml) : Except Unit Yaml := do
  let kind ← parsed.getE "kind"
  let api ← parsed.getE "apiVersion"
  match api with
  | some (.str a) =>
    match DEPRECATIONS.lookup a with
    | none => pure parsed
    | some mapping =>
      match depTarget mapping kind with
      | none => pure parsed
      | some na =>
        if na.isEmpty || listStartsWith "REMOVED".toList na.toList then pure parsed
        else do
          let p1 ← setKeyE parsed "apiVersion" (.str na)
          if na == "apps/v1" && kind == some (Yaml.str "Deployment") then do
            let spec ← p1.getDE "spec" (.map [])
            let hasSel ← pyInE (.str "selector") spec
            if hasSel then pure p1
            else do
              let spec2 ← p1.getDE "spec" (.map [])
              let tmpl ← spec2.getDE "template" (.map [])
              let md ← tmpl.getDE "metadata" (.map [])
              let labels ← md.getE "labels"
              match labels with
              | some lv =>
                if truthy lv then do
                  let specOld ← getItemE p1 "spec"
                  let specNew ← setKeyE specOld "selector" (.map [("matchLabels", lv)])
                  setKeyE p1 "spec" specNew
                else pure p1
              | none => pure p1
          else pure p1
  | _ => pure parsed

/-! ## Healer: per-container heuristic profile and limit injection -/

/-- Python `" ".join(xs)`: TypeError unless every element is a string. -/
def joinSpace : List Yaml → Except Unit String
  | [] => .ok ""
  | [.str s] => .ok s
  | .str s :: x :: xs => do pure (s ++ " " ++ (← joinSpace (x :: xs)))
  | _ => .error ()

/-- `" ".join(c.get(key, [])) if isinstance(c.get(key), list) else
str(c.get(key, ''))` (healer.py:110-111). -/
def cmdText (c : Yaml) (key : String) : Except Unit String := do
  match ← c.getE key with
  | some (.arr xs) => joinSpace xs
  | _ => do
    let v ← c.getDE key (.str "")
    pure (pyStr v)

/-- Lowercase a string (ASCII, as in the modelled inputs). -/
def lowerStr (s : String) : String :=
  String.mk (s.toList.map Char.toLower)

/-- The idle-placeholder signatures of healer.py:114. -/
def dummySigs : List String := ["sleep ", "tail -f /dev/null", "pause", "infinity"]

/-- The sidecar image signatures of healer.py:115. -/
def sidecarSigs : List String := ["istio-proxy", "envoy", "fluentd", "sidecar", "otel-collector"]

/-- The heuristic profile of one container (healer.py:108-120):
idle-placeholder command → dummy, sidecar image → sidecar, later
container → secondary, else primary; each with its fixed CPU/memory
ceiling. -/
def profileOf (c : Yaml) (idx : Nat) : Except Unit (String × String) := do
  let img ← c.getDE "image" (.str "")
  let c_image := lowerStr (pyStr img)
  let c_cmd ← cmdText c "command"
  let c_args ← cmdText c "args"
  let exec_context := lowerStr (c_cmd ++ " " ++ c_args)
  let is_dummy := dummySigs.any fun sig => substrOf sig exec_context
  let is_sidecar := sidecarSigs.any fun sig => substrOf sig c_image
  if is_dummy then pure ("10m", "32Mi")
  else if is_sidecar then pure ("100m", "128Mi")
  else if idx > 0 then pure ("200m", "192Mi")
  else pure ("500m", "256Mi")

/-- `res.get('requests', {})` after `res = c.get('resources', {})`
(healer.py:123,128). -/
def requestsOf (c : Yaml) : Except Unit Yaml := do
  let res ← c.getDE "resources" (.map [])
  res.getDE "requests" (.map [])

/-- One injected limit value (healer.py:128-133): the profile default
`dflt`, replaced by the container's own request under `key` when that
request parses strictly larger (`parser` is `parse_cpu` for `cpu` and
`parse_mem` for `memory`). -/
def finalLimit (parser : Yaml → Except Unit Int) (reqs : Yaml) (key dflt : String) :
    Except Unit Yaml := do
  let has ← pyInE (.str key) reqs
  if has then do
    let rv ← getItemE reqs key
    let a ← parser rv
    let b ← parser (.str dflt)
    pure (if b < a then rv else Yaml.str dflt)
  else pure (Yaml.str dflt)

/-- The `OOM_RISK` auto-fix for one container (healer.py:122-135 with
`apply_defaults = True`, continuing the doc comment of `finalLimit`):
`none` when `resources.limits` is already present, otherwise the
injected `(limits.cpu, limits.memory)` values.  The in-place mutation of
`c` and the `OOM_FIXED` bookkeeping are not modelled. -/
def oomInjected (c : Yaml) (idx : Nat) : Except Unit (Option (Yaml × Yaml)) := do
  let prof ← profileOf c idx
  let res ← c.getDE "resources" (.map [])
  let hasLimits ← pyInE (.str "limits") res
  if hasLimits then pure none
  else do
    let reqs ← res.getDE "requests" (.map [])
    let final_cpu ← finalLimit parse_cpu reqs "cpu" prof.1
    let final_mem ← finalLimit parse_mem reqs "memory" prof.2
    pure (some (final_cpu, final_mem))

/-! ## Shield: RBAC, HPA and ingress checks -/

/-- Flatten an optional YAML value, with `None` as explicit null. -/
def optY : Option Yaml → Yaml
  | some v => v
  | none => Yaml.nul

/-- Python `str()` of an optional YAML value. -/
def optYStr (o : Option Yaml) : String := pyStr (optY o)

/-- Sequential effectful map (the semantics of building a Python list
comprehension left to right). -/
def mapME {α β : Type _} (f : α → Except Unit β) : List α → Except Unit (List β)
  | [] => .ok []
  | x :: xs => do
    let b ← f x
    let bs ← mapME f xs
    pure (b :: bs)

/-- `any(v in container for v in vs)`: short-circuiting, errors
propagate (shield.py:255). -/
def anyInE (vs : List String) (container : Yaml) : Except Unit Bool :=
  match vs with
  | [] => .ok false
  | v :: rest => do
    let b ← pyInE (.str v) container
    if b then pure true else anyInE rest container

/-- `next((d for d in ds if p d), None)`: first element satisfying a
monadic predicate, evaluated left to right. -/
def findME : List Yaml → (Yaml → Except Unit Bool) → Except Unit (Option Yaml)
  | [], _ => .ok none
  | d :: rest, p => do
    let b ← p d
    if b then pure (some d) else findME rest p

/-- `metadata.name` with the `unknown` default (shield.py:240 and
elsewhere). -/
def mdNameOf (doc : Yaml) : Except Unit Yaml := do
  let md ← doc.getDE "metadata" (.map [])
  md.getDE "name" (.str "unknown")

/-- `resource.get("rules") or resource.get("spec", \x7b\x7d).get("rules", [])`
(shield.py:241). -/
def rbacRulesOf (resource : Yaml) : Except Unit Yaml := do
  let rulesOpt ← resource.getE "rules"
  let r0 := optY rulesOpt
  if truthy r0 then pure r0
  else do
    let spec ← resource.getDE "spec" (.map [])
    spec.getDE "rules" (.arr [])

/-- The `RBAC_WILD` finding for one rule (shield.py:249-254). -/
def rbacWildFinding (kind : Option Yaml) (name rule : Yaml) : Finding :=
  add_finding "RBAC_WILD" HIGH
    ("🚨 Security Risk: " ++ optYStr kind ++ " " ++ sq ++ pyStr name ++ sq
      ++ " uses global wildcards (*).") (get_line rule)

/-- The `RBAC_SECRET` finding for one rule (shield.py:256-261). -/
def rbacSecretFinding (kind : Option Yaml) (name rule : Yaml) : Finding :=
  add_finding "RBAC_SECRET" MEDIUM
    ("🛡️ Warning: " ++ optYStr kind ++ " " ++ sq ++ pyStr name ++ sq
      ++ " allows read access to Secrets.") (get_line rule)

/-- Short-circuit `"*" in verbs and "*" in res_list` (shield.py:248). -/
def wildBothE (verbs res_list : Yaml) : Except Unit Bool := do
  let wildV ← pyInE (.str "*") verbs
  if wildV then pyInE (.str "*") res_list else pure false

/-- Short-circuit `"secrets" in res_list and any(v in verbs for v in
["*", "get", "list", "watch"])` (shield.py:255). -/
def secretReadE (verbs res_list : Yaml) : Except Unit Bool := do
  let sec ← pyInE (.str "secrets") res_list
  if sec then anyInE ["*", "get", "list", "watch"] verbs else pure false

/-- The per-rule body of `Shield.check_rbac_security` (shield.py:244-261):
`RBAC_WILD` for `*` in both verbs and resources, otherwise (`elif`)
`RBAC_SECRET` for `secrets` read access — never both for one rule. -/
def rbacRuleFindings (kind : Option Yaml) (name rule : Yaml) : Except Unit (List Finding) := do
  let verbs ← rule.getDE "verbs" (.arr [])
  let res_list ← rule.getDE "resources" (.arr [])
  let wild ← wildBothE verbs res_list
  if wild then pure [rbacWildFinding kind name rule]
  else do
    let secRead ← secretReadE verbs res_list
    if secRead then pure [rbacSecretFinding kind name rule]
    else pure []

/-- `Shield.check_rbac_security` (shield.py:237-262): for `Role` /
`ClusterRole` resources, `RBAC_WILD` (High) for a rule with `*` in both
verbs and resources, otherwise (`elif`) `RBAC_SECRET` (Medium) for a
rule granting `secrets` read via `*`/`get`/`list`/`watch`. -/
def check_rbac_security (resource : Yaml) : Except Unit (List Finding) := do
  let kind ← resource.getE "kind"
  let name ← mdNameOf resource
  let rules ← rbacRulesOf resource
  if kind == some (Yaml.str "Role") || kind == some (Yaml.str "ClusterRole") then do
    let items ← asListE rules
    items.foldlM (fun acc rule => do
      let fs ← rbacRuleFindings kind name rule
      pure (acc ++ fs)) []
  else pure []

/-- The workload-resolution predicate of `Shield.audit_hpa`
(shield.py:279-280): `metadata.name` equality against the target name
and kind in `Deployment`/`StatefulSet`; the namespace is not
consulted. -/
def workloadPred (t_name : Option Yaml) (d : Yaml) : Except Unit Bool := do
  let md ← d.getDE "metadata" (.map [])
  let nm ← md.getE "name"
  if nm != t_name then pure false
  else do
    let k ← d.getE "kind"
    pure (k == some (Yaml.str "Deployment") || k == some (Yaml.str "StatefulSet"))

/-- The container list of a resolved workload (shield.py:292). -/
def containersOf (w : Yaml) : Except Unit (List Yaml) := do
  let wspec ← w.getDE "spec" (.map [])
  let tmpl ← wspec.getDE "template" (.map [])
  let tspec ← tmpl.getDE "spec" (.map [])
  let containersY ← tspec.getDE "containers" (.arr [])
  asListE containersY

/-- One (metric, container) step of the `HPA_MISSING_REQ` loop
(shield.py:294-302). -/
def hpaPairFinding (metric c : Yaml) : Except Unit (List Finding) := do
  let res ← c.getDE "resources" (.map [])
  let reqs ← res.getDE "requests" (.map [])
  let has ← pyInE metric reqs
  if has then pure []
  else do
    let cname ← c.getE "name"
    pure [add_finding "HPA_MISSING_REQ" HIGH
      ("HPA scales on " ++ pyStr metric ++ ", but container " ++ sq
        ++ optYStr cname ++ sq ++ " lacks " ++ pyStr metric ++ " requests.")
      (get_line c)]

/-- The metric × container double loop of shield.py:293-302. -/
def hpaPairsFindings (metrics containers : List Yaml) : Except Unit (List Finding) :=
  metrics.foldlM (fun acc metric =>
    containers.foldlM (fun acc2 c => do
      pure (acc2 ++ (← hpaPairFinding metric c))) acc) []

/-- `Shield.audit_hpa` (shield.py:264-303): resolve the autoscaler's
target among `all_docs` by `metadata.name` equality and kind in
`Deployment`/`StatefulSet` (the namespace is not consulted); unresolved
→ one `HPA_ORPHAN` (Medium); resolved → one `HPA_MISSING_REQ` (High)
per deduplicated resource metric per container lacking that metric
under `resources.requests`.  Python's arbitrary `set` iteration order
is modelled as first-occurrence order. -/
def audit_hpa (hpa_doc : Yaml) (all_docs : List Yaml) : Except Unit (List Finding) := do
  let kd ← hpa_doc.getE "kind"
  if kd != some (Yaml.str "HorizontalPodAutoscaler") then pure []
  else do
    let spec ← hpa_doc.getDE "spec" (.map [])
    let target ← spec.getDE "scaleTargetRef" (.map [])
    let t_name ← target.getE "name"
    let cpuT ← spec.getDE "targetCPUUtilizationPercentage" Yaml.nul
    let m0 : List Yaml := if truthy cpuT then [Yaml.str "cpu"] else []
    let metricsY ← spec.getDE "metrics" (.arr [])
    let mlist ← asListE metricsY
    let metrics ← mlist.foldlM (fun acc m => do
      let ty ← m.getE "type"
      if ty == some (Yaml.str "Resource") then do
        let r ← getItemE m "resource"
        let nm ← getItemE r "name"
        pure (acc ++ [nm])
      else pure acc) m0
    let workload ← findME all_docs (workloadPred t_name)
    match workload with
    | none =>
      pure [add_finding "HPA_ORPHAN" MEDIUM
        ("HPA targets " ++ sq ++ optYStr t_name ++ sq
          ++ ", but no such Deployment/StatefulSet found in this scan.")
        (get_line hpa_doc)]
    | some w => do
      let containers ← containersOf w
      hpaPairsFindings metrics.eraseDups containers

/-- The service-resolution predicate of
`Shield.check_ingress_service_alignment` (shield.py:155-157): kind
`Service`, `metadata.name` equal to the backend's service name, and
`metadata.namespace` (default `default`) equal to the ingress's
namespace. -/
def svcPred (ingress_ns target_svc : Yaml) (d : Yaml) : Except Unit Bool := do
  let k ← d.getE "kind"
  if k != some (Yaml.str "Service") then pure false
  else do
    let md ← d.getDE "metadata" (.map [])
    let nm ← md.getE "name"
    if optY nm != target_svc then pure false
    else do
      let md2 ← d.getDE "metadata" (.map [])
      let ns ← md2.getDE "namespace" (.str "default")
      pure (ns == ingress_ns)

/-- The declared ports of a resolved Service (shield.py:160-162): the
truthy `port` values and the truthy `name` values. -/
def portsOf (matched_svc : Yaml) : Except Unit (List Yaml × List Yaml) := do
  let sspec ← matched_svc.getDE "spec" (.map [])
  let portsY ← sspec.getDE "ports" (.arr [])
  let ports ← asListE portsY
  let nums ← ports.foldlM (fun acc p => do
    let v ← p.getE "port"
    pure (if optTruthy v then acc ++ [optY v] else acc)) ([] : List Yaml)
  let names ← ports.foldlM (fun acc p => do
    let v ← p.getE "name"
    pure (if optTruthy v then acc ++ [optY v] else acc)) ([] : List Yaml)
  pure (nums, names)

/-- The per-path body of `Shield.check_ingress_service_alignment`
(shield.py:145-189): resolve the backend's service among `all_docs` by
name and the ingress's namespace; resolved → `INGRESS_PORT_MISMATCH`
(Critical) when the declared backend port matches no declared service
port (exact numeric or named); unresolved → `INGRESS_ORPHAN` (Medium),
only when `all_docs` holds more than one document.  (Python's
`isinstance(target_port, int)` also admits booleans; cross-type `==` is
not modelled.) -/
def ingressPathCheck (doc ingress_name ingress_ns : Yaml) (all_docs : List Yaml)
    (path : Yaml) : Except Unit (List Finding) := do
  let backend0 ← path.getDE "backend" (.map [])
  let backend := pyOr backend0 (.map [])
  let svc_node ← backend.getDE "service" backend
  let n1 ← svc_node.getE "name"
  let target_svc ← (do
    if optTruthy n1 then pure (optY n1)
    else do
      let sn ← backend.getE "serviceName"
      pure (optY sn))
  let port_node ← svc_node.getDE "port" (.map [])
  let target_port ← (match port_node with
    | .map _ => do
      let pn ← port_node.getE "number"
      pure (optY pn)
    | _ => pure port_node)
  if !truthy target_svc then pure []
  else do
    let matched ← findME all_docs (svcPred ingress_ns target_svc)
    match matched with
    | some matched_svc => do
      let pp ← portsOf matched_svc
      let nums := pp.1
      let names := pp.2
      let is_match :=
        match target_port with
        | .int n => nums.contains (.int n)
        | .str s => names.contains (.str s)
        | _ => false
      if truthy target_port && !is_match then
        pure [add_finding "INGRESS_PORT_MISMATCH" CRITICAL
          ("Ingress " ++ sq ++ pyStr ingress_name ++ sq ++ " targets port " ++ sq
            ++ pyStr target_port ++ sq ++ ", but Service " ++ sq ++ pyStr target_svc ++ sq
            ++ " only exposes " ++ pyStr (.arr (nums ++ names)) ++ ".")
          (get_line doc)]
      else pure []
    | none =>
      if !all_docs.isEmpty && decide (all_docs.length > 1) then
        pure [add_finding "INGRESS_ORPHAN" MEDIUM
          ("Ingress " ++ sq ++ pyStr ingress_name ++ sq ++ " points to Service " ++ sq
            ++ pyStr target_svc ++ sq ++ ", but that Service was not found in this scan context.")
          (get_line doc)]
      else pure []

/-- `Shield.check_ingress_service_alignment` (shield.py:132-190): the
rule/path loops around `ingressPathCheck`. -/
def check_ingress_service_alignment (doc : Yaml) (all_docs : List Yaml) :
    Except Unit (List Finding) := do
  let kd ← doc.getE "kind"
  if kd != some (Yaml.str "Ingress") then pure []
  else do
    let md ← doc.getDE "metadata" (.map [])
    let ingress_name ← md.getDE "name" (.str "unknown")
    let md2 ← doc.getDE "metadata" (.map [])
    let ingress_ns ← md2.getDE "namespace" (.str "default")
    let spec0 ← doc.getDE "spec" (.map [])
    let spec := pyOr spec0 (.map [])
    let rulesY ← spec.getDE "rules" (.arr [])
    let rules ← asListE rulesY
    rules.foldlM (fun acc rule => do
      let http0 ← rule.getDE "http" (.map [])
      let http := pyOr http0 (.map [])
      let pathsY ← http.getDE "paths" (.arr [])
      let paths ← asListE pathsY
      paths.foldlM (fun acc2 path => do
        let fs ← ingressPathCheck doc ingress_name ingress_ns all_docs path
        pure (acc2 ++ fs)) acc) []

/-- The live ingress-alignment scan of one healed file (healer.py:160-168
and 206): `heal_file` parses the current file into `all_parsed_docs` and
calls `shield.scan(parsed, all_docs=all_parsed_docs)` for each of that
file's documents, so the corpus the check sees is always the current
file's own document list; `shield.scan` (shield.py:96-99) runs the
cross-resource checks only when that corpus is non-empty.  (The other
scan loop, main.py:611-615, filters `syn.all_docs` by comparing the
stored basename `_origin_file` against the full path `str(fpath)` and so
never passes any document to `shield.scan`; it is dead for this check.) -/
def scanIngressFile (docs : List Yaml) : Except Unit (List Finding) :=
  if docs.isEmpty then pure []
  else
    docs.foldlM (fun acc d => do
      let fs ← check_ingress_service_alignment d docs
      pure (acc ++ fs)) []

/-! ## Synapse: cross-resource graph nodes and audits -/

/-- The severity literal of synapse.py's `GHOST`, `INGRESS_ORPHAN` and
`HPA_LOGIC` issues, reproduced with the double-encoded (mojibake) bytes
present in the source file; `AuditIssue.is_critical` matches it via the
`HIGH` substring. -/
def synHighSev : String := "ðŸ”´ HIGH"

/-- The severity literal of synapse.py's `VOL_MISSING` and `PROBE_GAP`
issues (same mojibake encoding; the char before ` MED` is U+00A0). -/
def synMedSev : String := "ðŸŸ  MED"

/-- `models.AuditIssue` (models.py:4-12); `line` defaults to `None` and
is never set by the audits modelled here. -/
structure AuditIssue where
  code : String
  severity : String
  file : String
  message : String
  source : String
  fix : String
  line : Option Int
deriving DecidableEq

/-- The producer record built by `Synapse.scan_file` for workload kinds
(synapse.py:74-78), projected to the fields the modelled audits read
(`ports`, `probes` and `serviceName` are omitted). -/
structure SynProducer where
  name : Yaml
  labels : Yaml
  ns : Yaml
  file : String
  volumes : List Yaml

/-- The consumer record built by `Synapse.scan_file` for Services
(synapse.py:82-87), projected likewise (`ports`, `clusterIP`
omitted). -/
structure SynConsumer where
  name : Yaml
  ns : Yaml
  file : String
  selector : Yaml

/-- The config record built by `Synapse.scan_file` for ConfigMaps and
Secrets (synapse.py:95). -/
structure SynConfig where
  name : Yaml
  kind : String
  ns : Yaml
  file : String

/-- The ingress record built by `Synapse.scan_file` (synapse.py:91). -/
structure SynIngress where
  name : Yaml
  ns : Yaml
  file : String
  spec : Yaml

/-- `svc['selector'].items() <= p['labels'].items()` (synapse.py:116):
set-like subset comparison of dict item views; AttributeError on
non-mappings. -/
def itemsSubsetE (a b : Yaml) : Except Unit Bool :=
  match a, b with
  | .map ma, .map mb => .ok (ma.all fun kv => mb.contains kv)
  | _, _ => .error ()

/-- The ghost-service audit for one Service (synapse.py:109-127): a
Service with a truthy selector and no producer in the same namespace
whose pod-template labels contain every selector pair yields exactly
one `GHOST` issue on the Service's file; the number of scanned files
never enters the check. -/
def ghostIssue (producers : List SynProducer) (svc : SynConsumer) :
    Except Unit (Option AuditIssue) := do
  if !truthy svc.selector then pure none
  else do
    let flags ← mapME (fun p =>
      if p.ns == svc.ns then itemsSubsetE svc.selector p.labels else pure false) producers
    if flags.any id then pure none
    else pure (some
      { code := "GHOST", severity := synHighSev, file := svc.file
        message := "GHOST SERVICE: Service " ++ sq ++ pyStr svc.name ++ sq
          ++ " matches 0 workload pods."
        fix := "Update Service selector to match Deployment labels."
        source := "Synapse", line := none })

/-- The ghost-service loop of `Synapse.audit` (synapse.py:109-127). -/
def ghostAudit (producers : List SynProducer) (consumers : List SynConsumer) :
    Except Unit (List AuditIssue) :=
  consumers.foldlM (fun acc svc => do
    match ← ghostIssue producers svc with
    | some iss => pure (acc ++ [iss])
    | none => pure acc) []

/-- The volume-reference name of one volume entry (synapse.py:152-154):
`configMap.name`, overridden by `secret.secretName` when both keys are
present; null when neither is. -/
def volRefName (vol : Yaml) : Except Unit Yaml := do
  let hasCM ← pyInE (.str "configMap") vol
  let r1 ← if hasCM then do
      let cm ← getItemE vol "configMap"
      let n ← cm.getE "name"
      pure (optY n)
    else pure Yaml.nul
  let hasSec ← pyInE (.str "secret") vol
  if hasSec then do
    let sc ← getItemE vol "secret"
    let n ← sc.getE "secretName"
    pure (optY n)
  else pure r1

/-- The `VOL_MISSING` issue for one unresolved reference
(synapse.py:159-166). -/
def volIssue (p : SynProducer) (ref : Yaml) : AuditIssue :=
  { code := "VOL_MISSING", severity := synMedSev, file := p.file
    message := "Workload " ++ sq ++ pyStr p.name ++ sq
      ++ " references missing ConfigMap/Secret " ++ sq ++ pyStr ref ++ sq ++ "."
    fix := "Verify the resource name and namespace."
    source := "Synapse", line := none }

/-- One volume step of the ConfigMap/Secret audit (synapse.py:151-166):
a truthy reference name with no config record of matching name and
namespace — the record's kind is not consulted — appends a
`VOL_MISSING` issue. -/
def volBody (configs : List SynConfig) (p : SynProducer) (acc : List AuditIssue)
    (vol : Yaml) : Except Unit (List AuditIssue) := do
  let ref ← volRefName vol
  if truthy ref then
    if configs.any (fun c2 => c2.name == ref && c2.ns == p.ns) then pure acc
    else pure (acc ++ [volIssue p ref])
  else pure acc

/-- The ConfigMap/Secret volume audit for one producer
(synapse.py:150-166). -/
def volMissingIssues (configs : List SynConfig) (p : SynProducer) :
    Except Unit (List AuditIssue) :=
  p.volumes.foldlM (volBody configs p) []

/-- The pure issue batch one resolved reference contributes. -/
def volPure (configs : List SynConfig) (p : SynProducer) (ref : Yaml) : List AuditIssue :=
  if truthy ref && !(configs.any fun c2 => c2.name == ref && c2.ns == p.ns) then
    [volIssue p ref]
  else []

/-- The ingress-to-service audit of `Synapse.audit` (synapse.py:130-147)
for one ingress record: every backend naming a Service that no consumer
record resolves (by name and the ingress's namespace) yields an
`INGRESS_ORPHAN` issue of the mojibake-High severity, with no condition
on how many files or documents were scanned. -/
def synapseIngressOrphans (consumers : List SynConsumer) (ing : SynIngress) :
    Except Unit (List AuditIssue) := do
  let rules0 ← ing.spec.getE "rules"
  let rules ← asListE (pyOr (optY rules0) (.arr []))
  rules.foldlM (fun acc rule => do
    let http ← rule.getDE "http" (.map [])
    let paths0 ← http.getE "paths"
    let paths ← asListE (pyOr (optY paths0) (.arr []))
    paths.foldlM (fun acc2 path => do
      let backend ← path.getDE "backend" (.map [])
      let sn ← backend.getE "serviceName"
      let svc_name ← (do
        if optTruthy sn then pure (optY sn)
        else do
          let svc ← backend.getDE "service" (.map [])
          let n ← svc.getE "name"
          pure (optY n))
      if truthy svc_name then
        if consumers.any (fun s => s.name == svc_name && s.ns == ing.ns) then pure acc2
        else
          pure (acc2 ++ [
            { code := "INGRESS_ORPHAN", severity := synHighSev, file := ing.file
              message := "Ingress references non-existent Service " ++ sq
                ++ pyStr svc_name ++ sq ++ "."
              fix := "Create the missing Service or fix the backend name."
              source := "Synapse", line := none }])
      else pure acc2) acc) []

/-! ## Pure counterparts on shaped documents

The monadic checks above mirror Python, where malformed trees raise.
On documents of the expected shape the checks cannot raise; the
following pure functions compute their values there, and the theorems
below prove the correspondence. -/

/-- A decoded document whose `metadata` entry, when present, is a
mapping. -/
def docShape (d : Yaml) : Bool :=
  match d with
  | .map m =>
    match m.lookup "metadata" with
    | none => true
    | some (.map _) => true
    | some _ => false
  | _ => false

/-- Pure form of `svcPred` on shaped documents. -/
def resolvesService (ingress_ns target_svc : Yaml) (d : Yaml) : Bool :=
  match d with
  | .map m =>
    m.lookup "kind" == some (Yaml.str "Service") &&
    (match m.lookup "metadata" with
     | some (.map md) =>
       optY (md.lookup "name") == target_svc &&
       (md.lookup "namespace").getD (Yaml.str "default") == ingress_ns
     | none => Yaml.nul == target_svc && Yaml.str "default" == ingress_ns
     | some _ => false)
  | _ => false

/-- Pure form of `workloadPred` on shaped documents: name and kind
only. -/
def resolvesWorkload (t_name : Option Yaml) (d : Yaml) : Bool :=
  match d with
  | .map m =>
    (match m.lookup "metadata" with
     | some (.map md) => md.lookup "name" == t_name
     | none => (none : Option Yaml) == t_name
     | some _ => false) &&
    (m.lookup "kind" == some (Yaml.str "Deployment") ||
     m.lookup "kind" == some (Yaml.str "StatefulSet"))
  | _ => false

/-- A container mapping whose `resources` and `resources.requests`
entries, when present, are mappings. -/
def containerShaped (c : Yaml) : Bool :=
  match c with
  | .map cm =>
    match (cm.lookup "resources").getD (.map []) with
    | .map rm =>
      match (rm.lookup "requests").getD (.map []) with
      | .map _ => true
      | _ => false
    | _ => false
  | _ => false

/-- Scalar metrics: the only values `metric in requests` accepts without
raising. -/
def metricScalar (metric : Yaml) : Bool :=
  match metric with
  | .arr _ => false
  | .map _ => false
  | _ => true

/-- Pure form of the `metric in c.resources.requests` test on shaped
containers. -/
def reqHas (metric c : Yaml) : Bool :=
  match c with
  | .map cm =>
    match (cm.lookup "resources").getD (.map []) with
    | .map rm =>
      match (rm.lookup "requests").getD (.map []) with
      | .map qm =>
        match metric with
        | .str k => qm.any (fun kv => kv.1 == k)
        | _ => false
      | _ => false
    | _ => false
  | _ => false

/-- `c.get('name')` on a container mapping. -/
def cnameOf (c : Yaml) : Option Yaml :=
  match c with
  | .map cm => cm.lookup "name"
  | _ => none

/-- Pure form of `hpaPairFinding` on shaped containers and scalar
metrics. -/
def hpaPairPure (metric c : Yaml) : List Finding :=
  if reqHas metric c then []
  else
    [add_finding "HPA_MISSING_REQ" HIGH
      ("HPA scales on " ++ pyStr metric ++ ", but container " ++ sq
        ++ optYStr (cnameOf c) ++ sq ++ " lacks " ++ pyStr metric ++ " requests.")
      (get_line c)]

/-- An RBAC rule mapping whose `verbs`/`resources` entries, when
present, are lists. -/
def ruleShaped (rule : Yaml) : Bool :=
  match rule with
  | .map rm =>
    (match (rm.lookup "verbs").getD (.arr []) with
     | .arr _ => true
     | _ => false) &&
    (match (rm.lookup "resources").getD (.arr []) with
     | .arr _ => true
     | _ => false)
  | _ => false

/-- `*` in both a shaped rule's verbs and resources. -/
def rbacWild (rule : Yaml) : Bool :=
  match rule with
  | .map rm =>
    (match (rm.lookup "verbs").getD (.arr []) with
     | .arr vs => vs.any (fun y => y == Yaml.str "*")
     | _ => false) &&
    (match (rm.lookup "resources").getD (.arr []) with
     | .arr rs => rs.any (fun y => y == Yaml.str "*")
     | _ => false)
  | _ => false

/-- `secrets` read access via `*`/`get`/`list`/`watch` in a shaped
rule. -/
def rbacSecretRead (rule : Yaml) : Bool :=
  match rule with
  | .map rm =>
    (match (rm.lookup "resources").getD (.arr []) with
     | .arr rs => rs.any (fun y => y == Yaml.str "secrets")
     | _ => false) &&
    (match (rm.lookup "verbs").getD (.arr []) with
     | .arr vs => ["*", "get", "list", "watch"].any
         (fun v => vs.any (fun y => y == Yaml.str v))
     | _ => false)
  | _ => false

/-- The codes one rule contributes: wildcard precedence via the
source's `elif`. -/
def rbacRuleCodes (rule : Yaml) : List String :=
  if rbacWild rule then ["RBAC_WILD"]
  else if rbacSecretRead rule then ["RBAC_SECRET"]
  else []

/-- Pure form of `rbacRuleFindings` on shaped rules. -/
def rbacRulePure (kind : Option Yaml) (name rule : Yaml) : List Finding :=
  if rbacWild rule then [rbacWildFinding kind name rule]
  else if rbacSecretRead rule then [rbacSecretFinding kind name rule]
  else []

/-- The backend path of the C6 theorems: a service backend naming
`svcName` with the given `port` node (a map with a `number` field for
numeric backends, a plain string for named backends). -/
def pathForP (svcName : String) (portY : Yaml) : Yaml :=
  .map [("backend", .map [("service", .map
    [("name", .str svcName), ("port", portY)])])]

/-- A numeric-port backend path. -/
def pathFor (svcName : String) (portNum : Int) : Yaml :=
  pathForP svcName (.map [("number", .int portNum)])


/-- Witness producer for C2: labels a=1, b=2 in the default namespace. -/
def c2wProd : SynProducer :=
  ⟨.str "d", .map [("a", Yaml.str "1"), ("b", Yaml.str "2")], .str "default", "d.yaml", []⟩

/-- Witness Service for C2: selector a=2 matches nothing. -/
def c2wSvc : SynConsumer := ⟨.str "s2", .str "default", "s2.yaml", .map [("a", Yaml.str "2")]⟩

/-- The GHOST issue the C2 witness produces. -/
def c2wIssue : AuditIssue :=
  { code := "GHOST", severity := synHighSev, file := "s2.yaml"
    message := "GHOST SERVICE: Service " ++ sq ++ "s2" ++ sq ++ " matches 0 workload pods."
    fix := "Update Service selector to match Deployment labels."
    source := "Synapse", line := none }

/-- The C8 rule satisfying both the wildcard and the secrets-read
conditions. -/
def c8rule : Yaml :=
  .map [("verbs", .arr [Yaml.str "*", Yaml.str "get"]),
        ("resources", .arr [Yaml.str "*", Yaml.str "secrets"])]

/-- The C8 ClusterRole carrying `c8rule`. -/
def c8doc : Yaml :=
  .map [("kind", .str "ClusterRole"), ("metadata", .map [("name", Yaml.str "star")]),
        ("rules", .arr [c8rule])]

/-- The C9 producer: one volume referencing Secret `x`. -/
def c9prod : SynProducer :=
  ⟨.str "w", .map [], .str "default", "w.yaml",
   [.map [("secret", .map [("secretName", Yaml.str "x")])]]⟩

/-- The C9 config record: a ConfigMap — not a Secret — named `x`. -/
def c9cfg : SynConfig := ⟨.str "x", "ConfigMap", .str "default", "c.yaml"⟩

/-! ## Main: the atomic persist step -/

/-- The two paths `_atomic_fix` touches: the original file path and its
backup path (`none` = the path does not exist). -/
structure FS where
  orig : Option String
  backup : Option String
deriving DecidableEq

/-- Where the persist step fails: nowhere, at `open` (before the target
is created), or during write/flush/fsync after the target was opened,
leaving `partialContent` (possibly empty) at the target. -/
inductive WriteOutcome where
  | success
  | failOnOpen
  | failDuringWrite (partialContent : String)
deriving DecidableEq

/-- The exception handler of `_atomic_fix` (main.py:1028-1034): restore
the backup only when the backup exists and the target path does not. -/
def restoreGuard (fs : FS) : FS :=
  match fs.backup, fs.orig with
  | some b, none => { orig := some b, backup := none }
  | _, _ => fs

/-- `AuditEngineV2._atomic_fix` (main.py:1002-1034) with
`dry_run = False`: rotate the original to the backup path, open and
write the new content at the target path, return success; on any
exception run `restoreGuard` and return failure.  `outcome` injects
where the write fails. -/
def atomic_fix (fs : FS) (fixed : String) (outcome : WriteOutcome) : FS × Bool :=
  match fs.orig with
  | none => (restoreGuard fs, false)
  | some content =>
    let fs1 : FS := { orig := none, backup := some content }
    match outcome with
    | .failOnOpen => (restoreGuard fs1, false)
    | .failDuringWrite part => (restoreGuard { fs1 with orig := some part }, false)
    | .success => ({ fs1 with orig := some fixed }, true)

/-- The behaviour of one injected limit, phrased over the container's
requests: the profile default unless the request under `key` parses
strictly larger, in which case the request itself; in parsed
(millicore/MiB) terms the result is never below the request. -/
def limitClause (parser : Yaml → Except Unit Int) (reqs : Yaml) (key dflt : String)
    (f : Yaml) : Prop :=
  (pyInE (.str key) reqs = .ok false → f = .str dflt) ∧
  (∀ r, pyInE (.str key) reqs = .ok true → getItemE reqs key = .ok r →
    ∃ rv pv fv, parser r = .ok rv ∧ parser (.str dflt) = .ok pv ∧
      f = (if pv < rv then r else .str dflt) ∧
      parser f = .ok fv ∧ rv ≤ fv)

/-- The limit-floor property of an injected limits pair. -/
def limitFloor (prof : String × String) (reqs fcpu fmem : Yaml) : Prop :=
  limitClause parse_cpu reqs "cpu" prof.1 fcpu ∧
  limitClause parse_mem reqs "memory" prof.2 fmem

/-- The container of the C1 witness: no `limits`, `requests` above the
primary-profile defaults. -/
def c1wItem : Yaml :=
  .map [("resources", .map
    [("requests", .map [("cpu", Yaml.str "750m"), ("memory", Yaml.str "512Mi")])])]


/-- C5 witness document: a PodDisruptionBudget on the deprecated policy/v1beta1 API. -/
def c5wDoc : Yaml := .map
  [("apiVersion", .str "policy/v1beta1"),
   ("kind", .str "PodDisruptionBudget"),
   ("metadata", .map [("name", .str "x")])]

/-- The finding deprecationFinding produces for `c5wDoc`. -/
def c5wFinding : Option Finding :=
  some ⟨"API_DEPRECATED", MEDIUM,
    "🛡️ PodDisruptionBudget " ++ sq ++ "x" ++ sq ++ " uses " ++ sq ++ "policy/v1beta1" ++ sq
      ++ ". Upgrade to " ++ sq ++ "policy/v1" ++ sq ++ ".", 1⟩

/-- The document applyApiFix produces for `c5wDoc`. -/
def c5wFixed : Yaml := .map
  [("apiVersion", .str "policy/v1"),
   ("kind", .str "PodDisruptionBudget"),
   ("metadata", .map [("name", .str "x")])]


/-- C6 Ingress document: one rule, one path, backend service web-svc port 8080. -/
def c6ing : Yaml := .map
  [("kind", .str "Ingress"),
   ("metadata", .map [("name", .str "ing")]),
   ("spec", .map [("rules", .arr
     [.map [("http", .map [("paths", .arr [pathFor "web-svc" 8080])])]])])]

/-- C6 companion document: a ConfigMap in the same file. -/
def c6cm : Yaml := .map
  [("kind", .str "ConfigMap"),
   ("metadata", .map [("name", .str "cm")])]

/-- C6 witness Service: web-svc in the default namespace exposing the
numbered port 80 under the name http. -/
def c6svc : Yaml := .map
  [("kind", .str "Service"),
   ("metadata", .map [("name", .str "web-svc"), ("namespace", .str "default")]),
   ("spec", .map [("ports", .arr [.map [("port", .int 80), ("name", .str "http")]])])]

/-- The finding ingressPathCheck produces for the witness mismatch. -/
def c6wFs : List Finding :=
  [⟨"INGRESS_PORT_MISMATCH", CRITICAL,
    "Ingress " ++ sq ++ "ing" ++ sq ++ " targets port " ++ sq ++ "8080" ++ sq
      ++ ", but Service " ++ sq ++ "web-svc" ++ sq ++ " only exposes [80, "
      ++ sq ++ "http" ++ sq ++ "].", 1⟩]


/-- C7 autoscaler: in namespace a, targeting the workload named web on CPU. -/
def c7hpa : Yaml := .map
  [("kind", .str "HorizontalPodAutoscaler"),
   ("metadata", .map [("name", .str "h"), ("namespace", .str "a")]),
   ("spec", .map
     [("scaleTargetRef", .map [("name", .str "web")]),
      ("targetCPUUtilizationPercentage", .int 80)])]

/-- C7 container: named c, with no resources block at all. -/
def c7container : Yaml := .map [("name", .str "c")]

/-- C7 workload: Deployment web in the other namespace b. -/
def c7dep : Yaml := .map
  [("kind", .str "Deployment"),
   ("metadata", .map [("name", .str "web"), ("namespace", .str "b")]),
   ("spec", .map [("template", .map [("spec", .map
     [("containers", .arr [c7container])])])])]

/-- The findings audit_hpa produces for `c7hpa` against `[c7dep]`. -/
def c7wFs : List Finding :=
  [⟨"HPA_MISSING_REQ", HIGH,
    "HPA scales on cpu, but container " ++ sq ++ "c" ++ sq ++ " lacks cpu requests.", 1⟩]


/-- The decimal digit characters (the `\d` class of parse_mem's regex and
the characters `int()` accepts unsigned). -/
def digitChars : List Char := ['0','1','2','3','4','5','6','7','8','9']

/-- The lowercase ASCII letters (the `[a-z]` class of parse_mem's regex). -/
def lowerChars : List Char :=
  ['a','b','c','d','e','f','g','h','i','j','k','l','m',
   'n','o','p','q','r','s','t','u','v','w','x','y','z']

/-- ASCII letters of either case (what `str.lower()` maps into
`lowerChars`). -/
def letterChars : List Char :=
  lowerChars ++
  ['A','B','C','D','E','F','G','H','I','J','K','L','M',
   'N','O','P','Q','R','S','T','U','V','W','X','Y','Z']

/-! ## Theorems -/

/-- `Except.ok` is left identity for bind. -/
theorem ok_bind {α β : Type _} (a : α) (f : α → Except Unit β) :
    (Except.ok a : Except Unit α) >>= f = f a := rfl

/-- Inversion of a successful `Except` bind. -/
theorem except_bind_ok {α β : Type _} {x : Except Unit α} {f : α → Except Unit β} {b : β}
    (h : x >>= f = .ok b) : ∃ a, x = .ok a ∧ f a = .ok b := by
  cases x with
  | error e => simp [Bind.bind, Except.bind] at h
  | ok a => exact ⟨a, rfl, by simpa [Bind.bind, Except.bind] using h⟩

/-- A successful `finalLimit` satisfies its clause. -/
theorem finalLimit_spec {parser : Yaml → Except Unit Int} {reqs : Yaml} {key dflt : String}
    {f : Yaml} (h : finalLimit parser reqs key dflt = .ok f) :
    limitClause parser reqs key dflt f := by
  unfold finalLimit at h
  obtain ⟨has, hhas, h⟩ := except_bind_ok h
  cases has with
  | false =>
    rw [if_neg Bool.false_ne_true] at h
    constructor
    · intro _
      simpa [Pure.pure, Except.pure] using h.symm
    · intro r htrue _
      rw [htrue] at hhas
      simp at hhas
  | true =>
    rw [if_pos rfl] at h
    constructor
    · intro hfalse
      rw [hfalse] at hhas
      simp at hhas
    · intro r htrue hitem
      obtain ⟨rv, hrv, h⟩ := except_bind_ok h
      rw [hitem] at hrv
      injection hrv with hrv
      subst hrv
      obtain ⟨a, ha, h⟩ := except_bind_ok h
      obtain ⟨b, hb, h⟩ := except_bind_ok h
      have h2 : (if b < a then r else Yaml.str dflt) = f := by
        simpa [Pure.pure, Except.pure] using h
      by_cases hba : b < a
      · refine ⟨a, b, a, ha, hb, h2.symm, ?_, le_refl a⟩
        rw [← h2, if_pos hba]
        exact ha
      · refine ⟨a, b, b, ha, hb, h2.symm, ?_, le_of_not_lt hba⟩
        rw [← h2, if_neg hba]
        exact hb

/-- C1: for every container lacking `resources.limits` that the
`apply_defaults` pass injects limits into, the injected `limits.cpu`
and `limits.memory` are the heuristic-profile defaults unless the
container's existing request (compared in millicores / MiB) exceeds the
default, in which case the injected limit equals that request; hence
the injected limit is never below the container's own request. -/
theorem c1_limit_floor (c : Yaml) (idx : Nat) (prof : String × String)
    (reqs fcpu fmem : Yaml)
    (hprof : profileOf c idx = .ok prof)
    (hreqs : requestsOf c = .ok reqs)
    (h : oomInjected c idx = .ok (some (fcpu, fmem))) :
    limitFloor prof reqs fcpu fmem := by
  unfold oomInjected at h
  rw [hprof, ok_bind] at h
  obtain ⟨res, hres, h⟩ := except_bind_ok h
  obtain ⟨hl, hhl, h⟩ := except_bind_ok h
  cases hl with
  | true =>
    rw [if_pos rfl] at h
    simp [Pure.pure, Except.pure] at h
  | false =>
    rw [if_neg Bool.false_ne_true] at h
    obtain ⟨reqs2, hreqs2, h⟩ := except_bind_ok h
    have hR : requestsOf c = .ok reqs2 := by
      unfold requestsOf
      rw [hres, ok_bind]
      exact hreqs2
    rw [hreqs] at hR
    injection hR with hR
    subst hR
    obtain ⟨fc, hfc, h⟩ := except_bind_ok h
    obtain ⟨fm, hfm, h⟩ := except_bind_ok h
    have hp : fc = fcpu ∧ fm = fmem := by
      simpa [Pure.pure, Except.pure, Prod.ext_iff] using h
    obtain ⟨rfl, rfl⟩ := hp
    exact ⟨finalLimit_spec hfc, finalLimit_spec hfm⟩

/-- Witness for C1: a primary container requesting `750m`/`512Mi`
against the `500m`/`256Mi` profile gets the requests as limits. -/
theorem c1_limit_floor_witness :
    limitFloor ("500m", "256Mi")
      (.map [("cpu", Yaml.str "750m"), ("memory", Yaml.str "512Mi")])
      (.str "750m") (.str "512Mi") :=
  c1_limit_floor c1wItem 0 ("500m", "256Mi")
    (.map [("cpu", Yaml.str "750m"), ("memory", Yaml.str "512Mi")])
    (.str "750m") (.str "512Mi") (by decide) (by decide) (by decide)

/-- `pure` on `Except` is `ok`. -/
theorem pure_ok {α : Type _} (a : α) : (pure a : Except Unit α) = .ok a := rfl

/-- Pointwise-successful `mapME` computes the pure map. -/
theorem mapME_ok {α β : Type _} {f : α → Except Unit β} {g : α → β} :
    ∀ {xs : List α}, (∀ x ∈ xs, f x = .ok (g x)) → mapME f xs = .ok (xs.map g)
  | [], _ => rfl
  | x :: xs, h => by
    have hx := h x (List.mem_cons_self x xs)
    have hxs : mapME f xs = .ok (xs.map g) :=
      mapME_ok fun y hy => h y (List.mem_cons_of_mem x hy)
    simp [mapME, hx, hxs, ok_bind, pure_ok]

/-- A fold whose body appends a pointwise-computable batch succeeds with
the concatenation of the batches. -/
theorem foldlM_append_ok {α β : Type _} {f : List β → α → Except Unit (List β)}
    {gp : α → List β} :
    ∀ {xs : List α}, (∀ x ∈ xs, ∀ acc, f acc x = .ok (acc ++ gp x)) →
      ∀ acc, List.foldlM f acc xs = .ok (acc ++ (xs.map gp).join)
  | [], _, acc => by simp [List.foldlM, pure_ok]
  | x :: xs, h, acc => by
    have hx := h x (List.mem_cons_self x xs) acc
    have hxs := @foldlM_append_ok α β f gp xs
      (fun y hy => h y (List.mem_cons_of_mem x hy)) (acc ++ gp x)
    simp only [List.foldlM, hx, ok_bind]
    rw [hxs]
    simp [List.append_assoc]

/-- A fold preserving a result invariant. -/
theorem foldlM_invariant {α β : Type _} (P : β → Prop) {f : β → α → Except Unit β} :
    ∀ {xs : List α} {acc : β} {res : β},
      P acc → (∀ a x b, P a → f a x = .ok b → P b) →
      List.foldlM f acc xs = .ok res → P res
  | [], acc, res, hacc, _, h => by
    simp [List.foldlM, pure_ok] at h
    exact h ▸ hacc
  | x :: xs, acc, res, hacc, hstep, h => by
    simp only [List.foldlM] at h
    obtain ⟨b, hb, h⟩ := except_bind_ok h
    exact foldlM_invariant P (hstep acc x b hacc hb) hstep h

/-- `findME` with a pointwise-successful predicate is `List.find?`. -/
theorem findME_find? {p : Yaml → Except Unit Bool} {q : Yaml → Bool} :
    ∀ {ds : List Yaml}, (∀ d ∈ ds, p d = .ok (q d)) →
      findME ds p = .ok (ds.find? q)
  | [], _ => rfl
  | d :: ds, h => by
    have hd := h d (List.mem_cons_self d ds)
    have hds : findME ds p = .ok (ds.find? q) :=
      findME_find? fun y hy => h y (List.mem_cons_of_mem d hy)
    cases hq : q d with
    | true => simp [findME, hd, hq, ok_bind, pure_ok, List.find?_cons_of_pos, hq]
    | false =>
      rw [List.find?_cons_of_neg _ (by simp [hq])]
      simp [findME, hd, hq, ok_bind, hds]

/-- Every factor of the `parse_mem` unit table is non-negative. -/
theorem memFactor_nonneg (u : List Char) : 0 ≤ ((memUnits.lookup u).getD (1, 1)).1 := by
  simp only [memUnits, List.lookup]
  repeat' split
  all_goals norm_num

/-- C10 counterexample: `parse_cpu` is not total and not non-negative —
`int("x")` raises an uncaught ValueError for the input `"xm"`, and
`"-5m"` parses to the negative value `-5`. -/
theorem c10_parsers_counterexample :
    parse_cpu (.str "xm") = .error () ∧ parse_cpu (.str "-5m") = .ok (-5) :=
  ⟨by decide, by decide⟩

/-- dropWhile keeps a list none of whose elements satisfy the predicate. -/
theorem dropWhile_eq_self_of {p : Char → Bool} : ∀ {l : List Char},
    (∀ c ∈ l, p c = false) → l.dropWhile p = l
  | [], _ => rfl
  | c :: t, h => by
    simp only [List.dropWhile]
    rw [h c (List.mem_cons_self c t)]

/-- Stripping a list with no surrounding whitespace is the identity. -/
theorem stripL_eq_self {l : List Char} (h : ∀ c ∈ l, isPyWs c = false) : stripL l = l := by
  unfold stripL
  rw [dropWhile_eq_self_of h]
  rw [dropWhile_eq_self_of (fun c hc => h c (List.mem_reverse.mp hc))]
  exact List.reverse_reverse l

/-- takeWhile keeps a list all of whose elements satisfy the predicate. -/
theorem takeWhile_eq_self_of {p : Char → Bool} : ∀ {l : List Char},
    (∀ c ∈ l, p c = true) → l.takeWhile p = l
  | [], _ => rfl
  | c :: t, h => by
    simp only [List.takeWhile]
    rw [h c (List.mem_cons_self c t)]
    exact congrArg (c :: ·) (takeWhile_eq_self_of (fun x hx => h x (List.mem_cons_of_mem c hx)))

/-- takeWhile over an append stops exactly at the boundary. -/
theorem takeWhile_append_of {p : Char → Bool} : ∀ {l u : List Char},
    (∀ c ∈ l, p c = true) → (∀ c, u.head? = some c → p c = false) →
    (l ++ u).takeWhile p = l
  | [], u, _, hu => by
    cases u with
    | nil => rfl
    | cons c t =>
      simp only [List.nil_append, List.takeWhile]
      rw [hu c rfl]
  | c :: l, u, hl, hu => by
    simp only [List.cons_append, List.takeWhile]
    rw [hl c (List.mem_cons_self c _)]
    exact congrArg (c :: ·)
      (takeWhile_append_of (fun x hx => hl x (List.mem_cons_of_mem c hx)) hu)

/-- Mapping a pointwise-identity function is the identity. -/
theorem map_eq_self_of {f : Char → Char} : ∀ {l : List Char},
    (∀ c ∈ l, f c = c) → l.map f = l
  | [], _ => rfl
  | c :: t, h => by
    simp only [List.map]
    rw [h c (List.mem_cons_self c t),
      map_eq_self_of (fun x hx => h x (List.mem_cons_of_mem c hx))]

/-- Character-class facts for the ten decimal digits. -/
theorem digitChar_facts {c : Char} (h : c ∈ digitChars) :
    c.isDigit = true ∧ isPyWs c = false ∧ c.toLower = c ∧
    (c == '+') = false ∧ (c == '-') = false ∧ (c == 'm') = false := by
  fin_cases h <;> decide

/-- Character-class facts for the lowercase letters. -/
theorem lowerChar_facts {c : Char} (h : c ∈ lowerChars) :
    c.isLower = true ∧ c.isDigit = false ∧ isPyWs c = false := by
  fin_cases h <;> decide

/-- Character-class facts for ASCII letters of either case. -/
theorem letterChar_facts {c : Char} (h : c ∈ letterChars) :
    isPyWs c = false ∧ c.toLower ∈ lowerChars := by
  fin_cases h <;> decide

/-- A non-empty string is truthy. -/
theorem truthy_str_cons (c : Char) (l : List Char) :
    truthy (Yaml.str (String.mk (c :: l))) = true := by
  have hni : (String.mk (c :: l)).isEmpty = false := by
    rw [Bool.eq_false_iff]
    intro he
    have h3 := congrArg String.data ((String.isEmpty_iff _).mp he)
    simp at h3
  simp [truthy, hni]

/-- Truncating a fraction with denominator one is the identity. -/
theorem truncFrac_den_one (x : Int) : truncFrac (x, 1) = x := by
  unfold truncFrac
  split
  · rename_i hx
    rw [Nat.div_one, Int.toNat_of_nonneg hx]
  · rename_i hx
    rw [Nat.div_one, Int.toNat_of_nonneg (by omega), neg_neg]

/-- Truncating a nonnegative integer fraction is natural division. -/
theorem truncFrac_natCast (n k : Nat) : truncFrac ((n : Int), k) = ((n / k : Nat) : Int) := by
  unfold truncFrac
  rw [if_pos (Int.ofNat_nonneg n)]
  norm_num

/-- Python int() of a digit run is its decimal value. -/
theorem pyInt_digits (ds : List Char) (hne : ds ≠ [])
    (hd : ∀ c ∈ ds, c ∈ digitChars) : pyInt ds = some ((digitsToNat ds : Int)) := by
  obtain ⟨c, rest, rfl⟩ := List.exists_cons_of_ne_nil hne
  unfold pyInt
  rw [stripL_eq_self (fun x hx => (digitChar_facts (hd x hx)).2.1)]
  dsimp only
  rw [if_neg (by
    rw [(digitChar_facts (hd c (List.mem_cons_self c rest))).2.2.2.1]
    exact Bool.false_ne_true)]
  rw [if_neg (by
    rw [(digitChar_facts (hd c (List.mem_cons_self c rest))).2.2.2.2.1]
    exact Bool.false_ne_true)]
  rw [if_pos ⟨by simp, List.all_eq_true.mpr (fun x hx => (digitChar_facts (hd x hx)).1)⟩]
  rfl

/-- parse_cpu maps every digit run with an m suffix to its decimal value. -/
theorem parse_cpu_m (ds : List Char) (hne : ds ≠ [])
    (hd : ∀ c ∈ ds, c ∈ digitChars) :
    parse_cpu (.str (String.mk (ds ++ ['m']))) = .ok ((digitsToNat ds : Int)) := by
  have hts : truthy (Yaml.str (String.mk (ds ++ ['m']))) = true := by
    obtain ⟨c, rest, rfl⟩ := List.exists_cons_of_ne_nil hne
    exact truthy_str_cons c (rest ++ ['m'])
  unfold parse_cpu
  rw [if_neg (by rw [hts]; decide)]
  dsimp only
  rw [show (pyStr (Yaml.str (String.mk (ds ++ ['m'])))).toList = ds ++ ['m'] from rfl]
  rw [stripL_eq_self (fun x hx => by
    rcases List.mem_append.mp hx with hx1 | hx1
    · exact (digitChar_facts (hd x hx1)).2.1
    · rw [List.mem_singleton.mp hx1]
      decide)]
  rw [List.getLast?_concat]
  rw [if_pos (show ((some 'm' : Option Char) == some 'm') = true from by decide)]
  rw [List.dropLast_concat]
  rw [pyInt_digits ds hne hd]

/-- Python float() of a digit run is its exact decimal value. -/
theorem pyFloat_digits (ds : List Char) (hne : ds ≠ [])
    (hd : ∀ c ∈ ds, c ∈ digitChars) :
    pyFloat ds = some (mkFloat ((digitsToNat ds : Int), 1)) := by
  obtain ⟨c, rest, rfl⟩ := List.exists_cons_of_ne_nil hne
  unfold pyFloat
  rw [stripL_eq_self (fun x hx => (digitChar_facts (hd x hx)).2.1)]
  rw [map_eq_self_of (fun x hx => (digitChar_facts (hd x hx)).2.2.1)]
  dsimp only
  rw [(digitChar_facts (hd c (List.mem_cons_self c rest))).2.2.2.1,
      (digitChar_facts (hd c (List.mem_cons_self c rest))).2.2.2.2.1]
  simp only [Bool.false_eq_true, if_false]
  rw [if_neg (by
    intro hor
    rcases hor with h1 | h1
    · have hc1 : c = 'i' := by injection h1
      rw [hc1] at hd
      exact absurd (hd 'i' (List.mem_cons_self _ _)) (by decide)
    · have hc1 : c = 'i' := by injection h1
      rw [hc1] at hd
      exact absurd (hd 'i' (List.mem_cons_self _ _)) (by decide))]
  rw [if_neg (by
    intro h1
    have hc1 : c = 'n' := by injection h1
    rw [hc1] at hd
    exact absurd (hd 'n' (List.mem_cons_self _ _)) (by decide))]
  rw [takeWhile_eq_self_of (fun x hx => (digitChar_facts (hd x hx)).1)]
  rw [List.drop_length]
  dsimp only
  rw [if_neg (by simp)]
  norm_num [digitsToNat]

/-- parse_cpu multiplies every bare digit run by 1000 (below the float
overflow bound). -/
theorem parse_cpu_digits (ds : List Char) (hne : ds ≠ [])
    (hd : ∀ c ∈ ds, c ∈ digitChars) (hb : digitsToNat ds * 1000 < FLOAT_MAX_NAT) :
    parse_cpu (.str (String.mk ds)) = .ok ((digitsToNat ds : Int) * 1000) := by
  have hFM : 0 < FLOAT_MAX_NAT := by
    unfold FLOAT_MAX_NAT
    positivity
  unfold parse_cpu
  rw [if_neg (by
    obtain ⟨c, rest, rfl⟩ := List.exists_cons_of_ne_nil hne
    rw [truthy_str_cons]
    decide)]
  dsimp only
  rw [show (pyStr (Yaml.str (String.mk ds))).toList = ds from rfl]
  rw [stripL_eq_self (fun x hx => (digitChar_facts (hd x hx)).2.1)]
  rw [if_neg (by
    intro hc
    have hlast : ds.getLast? = some 'm' := eq_of_beq hc
    have hmem : 'm' ∈ ds := List.mem_of_mem_getLast? hlast
    exact absurd ((digitChar_facts (hd 'm' hmem)).2.2.2.2.2) (by decide))]
  rw [pyFloat_digits ds hne hd]
  have hn : digitsToNat ds < FLOAT_MAX_NAT := lt_of_le_of_lt (by omega) hb
  have h1 : fracLe ((FLOAT_MAX_NAT : Int), 1) ((digitsToNat ds : Int), 1) = false := by
    simp only [fracLe, decide_eq_false_iff_not]
    push_cast
    omega
  have h2 : fracLe ((digitsToNat ds : Int), 1) (-(FLOAT_MAX_NAT : Int), 1) = false := by
    simp only [fracLe, decide_eq_false_iff_not]
    push_cast
    omega
  have hmk : mkFloat ((digitsToNat ds : Int), 1) = .fin ((digitsToNat ds : Int), 1) := by
    unfold mkFloat
    rw [if_neg (by rw [h1]; decide), if_neg (by rw [h2]; decide)]
  rw [hmk]
  dsimp only
  have h3 : fracLe ((FLOAT_MAX_NAT : Int), 1) ((digitsToNat ds : Int) * 1000, 1) = false := by
    simp only [fracLe, decide_eq_false_iff_not]
    push_cast
    omega
  have h4 : fracLe ((digitsToNat ds : Int) * 1000, 1) (-(FLOAT_MAX_NAT : Int), 1) = false := by
    simp only [fracLe, decide_eq_false_iff_not]
    push_cast
    omega
  rw [if_neg (by rw [h3, h4]; decide)]
  rw [truncFrac_den_one]

/-- parse_mem returns 0 whenever the stripped, lowercased input does not
start with a digit. -/
theorem parse_mem_nodigit (v : Yaml)
    (h : ∀ c, ((stripL (pyStr v).toList).map Char.toLower).head? = some c →
      c.isDigit = false) :
    parse_mem v = .ok 0 := by
  unfold parse_mem
  cases htr : truthy v with
  | false => rw [if_pos (by decide)]
  | true =>
    rw [if_neg (by decide)]
    dsimp only
    rw [if_pos ?_]
    cases hcs : (stripL (pyStr v).toList).map Char.toLower with
    | nil => rfl
    | cons c t =>
      simp only [List.takeWhile]
      rw [h c (by rw [hcs]; rfl)]

/-- parse_mem on a digit run followed by letters: the value converted by
the looked-up unit factor, with the float-overflow guard of the
fractional factors. -/
theorem parse_mem_digits (ds u : List Char) (hne : ds ≠ [])
    (hd : ∀ c ∈ ds, c ∈ digitChars) (hu : ∀ c ∈ u, c ∈ letterChars) :
    parse_mem (.str (String.mk (ds ++ u)))
      = (if ((memUnits.lookup (u.map Char.toLower)).getD (1, 1)).2 ≠ 1 ∧
            FLOAT_MAX_NAT ≤ digitsToNat ds then .error ()
         else .ok (truncFrac ((digitsToNat ds : Int) *
            ((memUnits.lookup (u.map Char.toLower)).getD (1, 1)).1,
            ((memUnits.lookup (u.map Char.toLower)).getD (1, 1)).2))) := by
  unfold parse_mem
  rw [if_neg (by
    obtain ⟨c, rest, rfl⟩ := List.exists_cons_of_ne_nil hne
    rw [List.cons_append, truthy_str_cons]
    decide)]
  dsimp only
  rw [show (pyStr (Yaml.str (String.mk (ds ++ u)))).toList = ds ++ u from rfl]
  rw [stripL_eq_self (fun x hx => by
    rcases List.mem_append.mp hx with hx1 | hx1
    · exact (digitChar_facts (hd x hx1)).2.1
    · exact (letterChar_facts (hu x hx1)).1)]
  rw [List.map_append]
  rw [map_eq_self_of (fun x hx => (digitChar_facts (hd x hx)).2.2.1)]
  rw [takeWhile_append_of (fun x hx => (digitChar_facts (hd x hx)).1) (fun c hc => by
    obtain ⟨c0, hc0, hcl⟩ : ∃ c0 ∈ u, c0.toLower = c := by
      rcases hu2 : u with _ | ⟨c1, t⟩
      · rw [hu2] at hc
        cases hc
      · refine ⟨c1, by simp, ?_⟩
        rw [hu2] at hc
        simp only [List.map, List.head?] at hc
        injection hc
    rw [← hcl]
    exact (lowerChar_facts (letterChar_facts (hu c0 hc0)).2).2.1)]
  rw [if_neg hne]
  rw [List.drop_left]
  rw [takeWhile_eq_self_of (fun x hx => by
    obtain ⟨c0, hc0, hcl⟩ := List.mem_map.mp hx
    rw [← hcl]
    exact (lowerChar_facts (letterChar_facts (hu c0 hc0)).2).1)]

/-- C10 (amended): the quantity parsers return 0 for falsy input;
`parse_cpu` maps every digit run with an `m` suffix to exactly that
integer, and every bare digit run to 1000 times its value (below the
float-overflow bound), while fractional bare numbers truncate after the
multiplication and unparseable bare strings give 0; `parse_cpu` can
still raise (uncaught ValueError on a non-integer `m` prefix) and can
return negative values, per the counterexample; `parse_mem` returns 0
whenever the stripped, lowercased input does not start with a digit,
never returns a negative value, and converts every leading digit run by
its letter suffix: unit-multiplier suffixes (table value with
denominator 1) give the exact product, the fractional k/ki factor
divides by 1024 truncating toward zero, and an unknown suffix is
treated as MiB. -/
theorem c10_parsers_amended :
    (∀ v, truthy v = false → parse_cpu v = .ok 0 ∧ parse_mem v = .ok 0) ∧
    (∀ v n, parse_mem v = .ok n → 0 ≤ n) ∧
    (∀ ds : List Char, ds ≠ [] → (∀ c ∈ ds, c ∈ digitChars) →
      parse_cpu (.str (String.mk (ds ++ ['m']))) = .ok ((digitsToNat ds : Int))) ∧
    (∀ ds : List Char, ds ≠ [] → (∀ c ∈ ds, c ∈ digitChars) →
      digitsToNat ds * 1000 < FLOAT_MAX_NAT →
      parse_cpu (.str (String.mk ds)) = .ok ((digitsToNat ds : Int) * 1000)) ∧
    (∀ v, (∀ c, ((stripL (pyStr v).toList).map Char.toLower).head? = some c →
      c.isDigit = false) → parse_mem v = .ok 0) ∧
    (∀ ds u : List Char, ∀ a : Int, ds ≠ [] → (∀ c ∈ ds, c ∈ digitChars) →
      (∀ c ∈ u, c ∈ letterChars) →
      memUnits.lookup (u.map Char.toLower) = some (a, 1) →
      parse_mem (.str (String.mk (ds ++ u))) = .ok ((digitsToNat ds : Int) * a)) ∧
    (∀ ds u : List Char, ds ≠ [] → (∀ c ∈ ds, c ∈ digitChars) →
      (∀ c ∈ u, c ∈ letterChars) →
      memUnits.lookup (u.map Char.toLower) = some (1, 1024) →
      digitsToNat ds < FLOAT_MAX_NAT →
      parse_mem (.str (String.mk (ds ++ u))) = .ok (((digitsToNat ds / 1024 : Nat) : Int))) ∧
    (∀ ds u : List Char, ds ≠ [] → (∀ c ∈ ds, c ∈ digitChars) →
      (∀ c ∈ u, c ∈ letterChars) →
      memUnits.lookup (u.map Char.toLower) = none →
      parse_mem (.str (String.mk (ds ++ u))) = .ok ((digitsToNat ds : Int))) ∧
    parse_cpu (.str "1.5") = .ok 1500 ∧
    parse_cpu (.str "zzz") = .ok 0 := by
  refine ⟨?_, ?_, parse_cpu_m, parse_cpu_digits, parse_mem_nodigit, ?_, ?_, ?_,
    by decide, by decide⟩
  · intro v hv
    constructor
    · unfold parse_cpu
      rw [hv]
      rfl
    · unfold parse_mem
      rw [hv]
      rfl
  · intro v n h
    unfold parse_mem at h
    split at h
    · injection h with h
      omega
    · dsimp only at h
      split at h
      · injection h with h
        omega
      · split at h
        · cases h
        · injection h with h
          subst h
          unfold truncFrac
          split
          · exact Int.ofNat_nonneg _
          · rename_i hneg
            exact absurd (mul_nonneg (Int.ofNat_nonneg _) (memFactor_nonneg _)) hneg
  · intro ds u a hne hd hu hlook
    rw [parse_mem_digits ds u hne hd hu, hlook]
    rw [if_neg (by simp)]
    simp only [Option.getD_some, truncFrac_den_one]
  · intro ds u hne hd hu hlook hb
    rw [parse_mem_digits ds u hne hd hu, hlook]
    rw [if_neg (by
      intro hand
      omega)]
    simp only [Option.getD_some, mul_one, truncFrac_natCast]
  · intro ds u hne hd hu hlook
    rw [parse_mem_digits ds u hne hd hu, hlook]
    rw [if_neg (by simp)]
    simp only [Option.getD_none, mul_one, truncFrac_den_one]

/-- Witness for C10 (amended): the quantified clauses instantiated at
`Yaml.nul`, at concrete digit runs for the cpu clauses, and at concrete
digit-plus-suffix inputs for each memory-unit clause. -/
theorem c10_parsers_amended_witness :
    (parse_cpu Yaml.nul = .ok 0 ∧ parse_mem Yaml.nul = .ok 0) ∧
    parse_cpu (.str (String.mk (['2','5','0'] ++ ['m']))) = .ok ((digitsToNat ['2','5','0'] : Int)) ∧
    parse_cpu (.str (String.mk ['2'])) = .ok ((digitsToNat ['2'] : Int) * 1000) ∧
    parse_mem (.str (String.mk (['3'] ++ ['G','i']))) = .ok ((digitsToNat ['3'] : Int) * 1024) ∧
    parse_mem (.str (String.mk (['2','0','4','8'] ++ ['K','i'])))
      = .ok (((digitsToNat ['2','0','4','8'] / 1024 : Nat) : Int)) ∧
    parse_mem (.str (String.mk (['5'] ++ ['q','x']))) = .ok ((digitsToNat ['5'] : Int)) ∧
    (0 : Int) ≤ 512 :=
  ⟨c10_parsers_amended.1 Yaml.nul (by decide),
   c10_parsers_amended.2.2.1 ['2','5','0'] (by decide) (by decide),
   c10_parsers_amended.2.2.2.1 ['2'] (by decide) (by decide) (by decide),
   c10_parsers_amended.2.2.2.2.2.1 ['3'] ['G','i'] 1024 (by decide) (by decide) (by decide)
     (by decide),
   c10_parsers_amended.2.2.2.2.2.2.1 ['2','0','4','8'] ['K','i'] (by decide) (by decide)
     (by decide) (by decide) (by decide),
   c10_parsers_amended.2.2.2.2.2.2.2.1 ['5'] ['q','x'] (by decide) (by decide) (by decide)
     (by decide),
   c10_parsers_amended.2.1 (.str "512M") 512 (by decide)⟩

/-- C3: the rollback guard of `_atomic_fix` is wrong — a write failure
after the target file was opened (here: zero bytes written) leaves the
target existing, so `backup.exists() and not fpath.exists()` is false,
the backup is NOT restored, and the original path holds a zero-byte
file with the original content stranded at the backup path.  The
code's own comment ("Fail-safe: If anything went wrong during the
write, restore backup") and the specification both require the restore;
only the open-failure path (second conjunct) performs it. -/
theorem c3_rollback_code_bug :
    atomic_fix { orig := some "kind: Pod\n", backup := none } "fixed: yes\n"
        (.failDuringWrite "") =
      ({ orig := some "", backup := some "kind: Pod\n" }, false) ∧
    atomic_fix { orig := some "kind: Pod\n", backup := none } "fixed: yes\n"
        .failOnOpen =
      ({ orig := some "kind: Pod\n", backup := none }, false) :=
  ⟨rfl, rfl⟩

/-- C2: a Service with a non-empty selector matches a workload iff the
selector's key-value pairs are a subset of the workload's pod-template
labels and both share a namespace; zero matches yield exactly one GHOST
issue (severity literal containing HIGH) on the Service's file, and the
audit takes no file count — a single-file corpus behaves identically. -/
theorem c2_ghost_service (producers : List SynProducer) (svc : SynConsumer)
    (sel : List (String × Yaml)) (res : Option AuditIssue)
    (hsel : svc.selector = .map sel) (hne : sel ≠ [])
    (hlabs : ∀ p ∈ producers, p.ns = svc.ns → ∃ m, p.labels = Yaml.map m)
    (h : ghostIssue producers svc = .ok res) :
    (res = none ↔ ∃ p ∈ producers, p.ns = svc.ns ∧
        ∃ m, p.labels = Yaml.map m ∧ ∀ kv ∈ sel, kv ∈ m) ∧
    (∀ iss, res = some iss → iss.code = "GHOST" ∧ iss.severity = synHighSev ∧
        iss.file = svc.file) ∧
    (∀ iss, res = some iss → ghostAudit producers [svc] = .ok [iss]) := by
  have hga : ∀ iss, res = some iss → ghostAudit producers [svc] = .ok [iss] := by
    intro iss hres
    subst hres
    unfold ghostAudit
    simp [List.foldlM, h, Bind.bind, Except.bind, pure_ok]
  unfold ghostIssue at h
  have htr : truthy svc.selector = true := by
    rw [hsel]
    simp [truthy]
    exact hne
  rw [htr] at h
  simp only [Bool.not_true, Bool.false_eq_true, if_false] at h
  set gp : SynProducer → Bool := fun p =>
    if p.ns == svc.ns then
      (match p.labels with
       | .map m => sel.all (fun kv => m.contains kv)
       | _ => false)
    else false with hgp
  have hgpval : ∀ p m, (p.ns == svc.ns) = true → p.labels = Yaml.map m →
      gp p = sel.all (fun kv => m.contains kv) := by
    intro p m hpn hm
    rw [hgp]
    simp only [hpn, if_true, hm]
  have hpoint : ∀ p ∈ producers,
      (if p.ns == svc.ns then itemsSubsetE svc.selector p.labels else pure false) =
        Except.ok (gp p) := by
    intro p hp
    split
    · rename_i hpn
      obtain ⟨m, hm⟩ := hlabs p hp (eq_of_beq hpn)
      rw [hsel, hm, hgpval p m hpn hm]
      rfl
    · rename_i hpn
      have hpn2 : (p.ns == svc.ns) = false := by
        cases hx : (p.ns == svc.ns)
        · rfl
        · exact absurd hx hpn
      rw [hgp]
      simp only [hpn2, Bool.false_eq_true, if_false]
      rfl
  obtain ⟨flags, hflags, h⟩ := except_bind_ok h
  rw [mapME_ok hpoint] at hflags
  injection hflags with hflags
  subst hflags
  have hmatch : ((producers.map gp).any id = true) ↔
      ∃ p ∈ producers, p.ns = svc.ns ∧
        ∃ m, p.labels = Yaml.map m ∧ ∀ kv ∈ sel, kv ∈ m := by
    rw [List.any_eq_true]
    constructor
    · rintro ⟨x, hx, hxid⟩
      obtain ⟨p, hp, rfl⟩ := List.mem_map.mp hx
      refine ⟨p, hp, ?_⟩
      simp only [id] at hxid
      by_cases hpn : (p.ns == svc.ns) = true
      · refine ⟨eq_of_beq hpn, ?_⟩
        cases hl : p.labels with
        | map m =>
          rw [hgpval p m hpn hl] at hxid
          refine ⟨m, rfl, ?_⟩
          intro kv hkv
          have := (List.all_eq_true.mp hxid) kv hkv
          simpa [List.elem_iff] using this
        | nul => simp [hgp, hpn, hl] at hxid
        | bool b => simp [hgp, hpn, hl] at hxid
        | int n => simp [hgp, hpn, hl] at hxid
        | str s => simp [hgp, hpn, hl] at hxid
        | arr xs => simp [hgp, hpn, hl] at hxid
      · rw [hgp] at hxid
        simp only [Bool.not_eq_true] at hpn
        simp only [hpn, Bool.false_eq_true, if_false] at hxid
    · rintro ⟨p, hp, hns, m, hm, hsub⟩
      refine ⟨gp p, List.mem_map_of_mem gp hp, ?_⟩
      simp only [id]
      rw [hgpval p m (beq_iff_eq.mpr hns) hm, List.all_eq_true]
      intro kv hkv
      simpa [List.elem_iff] using hsub kv hkv
  cases hany : (producers.map gp).any id with
  | true =>
    rw [if_pos hany] at h
    have hres : res = none := by
      have h2 : (Except.ok (none : Option AuditIssue) : Except Unit (Option AuditIssue)) =
          .ok res := h
      injection h2 with h2
      exact h2.symm
    refine ⟨?_, ?_, hga⟩
    · constructor
      · intro _
        exact hmatch.mp hany
      · intro _
        exact hres
    · intro iss hiss
      rw [hres] at hiss
      cases hiss
  | false =>
    rw [if_neg (by simp [hany])] at h
    have hres : res = some
        { code := "GHOST", severity := synHighSev, file := svc.file
          message := "GHOST SERVICE: Service " ++ sq ++ pyStr svc.name ++ sq
            ++ " matches 0 workload pods."
          fix := "Update Service selector to match Deployment labels."
          source := "Synapse", line := none } := by
      have h2 := h
      injection h2 with h2
      exact h2.symm
    refine ⟨?_, ?_, hga⟩
    · constructor
      · intro hn
        rw [hres] at hn
        cases hn
      · intro hex
        exact absurd (hmatch.mpr hex) (by simp [hany])
    · intro iss hiss
      rw [hres] at hiss
      injection hiss with hiss
      subst hiss
      exact ⟨rfl, rfl, rfl⟩

/-- Witness for C2: the selector a=2 Service against a producer
labelled a=1, b=2 yields the GHOST issue. -/
theorem c2_ghost_service_witness :
    ((some c2wIssue = none) ↔ ∃ p ∈ [c2wProd], p.ns = c2wSvc.ns ∧
        ∃ m, p.labels = Yaml.map m ∧ ∀ kv ∈ [("a", Yaml.str "2")], kv ∈ m) ∧
    (∀ iss, (some c2wIssue : Option AuditIssue) = some iss → iss.code = "GHOST" ∧
        iss.severity = synHighSev ∧ iss.file = c2wSvc.file) ∧
    (∀ iss, (some c2wIssue : Option AuditIssue) = some iss →
        ghostAudit [c2wProd] [c2wSvc] = .ok [iss]) :=
  c2_ghost_service [c2wProd] c2wSvc [("a", Yaml.str "2")] (some c2wIssue) rfl
    (by decide)
    (by
      intro p hp h2
      rw [List.mem_singleton] at hp
      subst hp
      exact ⟨[("a", Yaml.str "1"), ("b", Yaml.str "2")], rfl⟩)
    (by decide)

/-- `volBody` with a resolved reference appends the pure batch. -/
theorem volBody_ok {configs : List SynConfig} {p : SynProducer} {vol ref : Yaml}
    (h : volRefName vol = .ok ref) (acc : List AuditIssue) :
    volBody configs p acc vol = .ok (acc ++ volPure configs p ref) := by
  unfold volBody volPure
  rw [h, ok_bind]
  cases ht : truthy ref with
  | false => simp [ht, pure_ok]
  | true =>
    cases ha : configs.any (fun c2 => c2.name == ref && c2.ns == p.ns) with
    | true => simp [ht, ha, pure_ok]
    | false => simp [ht, ha, pure_ok]

/-- Inversion of `mapME` on cons. -/
theorem mapME_cons_ok {α β : Type _} {f : α → Except Unit β} {x : α} {xs : List α}
    {rs : List β} (h : mapME f (x :: xs) = .ok rs) :
    ∃ r rs2, f x = .ok r ∧ mapME f xs = .ok rs2 ∧ rs = r :: rs2 := by
  unfold mapME at h
  obtain ⟨r, hr, h⟩ := except_bind_ok h
  obtain ⟨rs2, hrs2, h⟩ := except_bind_ok h
  refine ⟨r, rs2, hr, hrs2, ?_⟩
  have h2 : (Except.ok (r :: rs2) : Except Unit (List β)) = .ok rs := h
  injection h2 with h2
  exact h2.symm

/-- The volume fold computes the concatenation of the pure batches. -/
theorem volFold_ok (configs : List SynConfig) (p : SynProducer) :
    ∀ (vols refs : List Yaml) (acc : List AuditIssue),
      mapME volRefName vols = .ok refs →
      List.foldlM (volBody configs p) acc vols =
        .ok (acc ++ (refs.map (volPure configs p)).join)
  | [], refs, acc, h => by
    injection h with h
    subst h
    simp [List.foldlM, pure_ok]
  | v :: vols, refs, acc, h => by
    obtain ⟨r, rs2, hr, hrs2, rfl⟩ := mapME_cons_ok h
    simp only [List.foldlM]
    rw [volBody_ok hr, ok_bind, volFold_ok configs p vols rs2 _ hrs2]
    simp [List.append_assoc]

/-- C9 counterexample: a Secret-typed volume reference named `x`
resolves against a ConfigMap record of the same name and namespace, so
no `VOL_MISSING` issue is emitted although no Secret named `x` exists
in the corpus. -/
theorem c9_vol_missing_counterexample :
    volMissingIssues [c9cfg] c9prod = .ok [] ∧
    volRefName (.map [("secret", .map [("secretName", Yaml.str "x")])]) = .ok (.str "x") ∧
    c9cfg.kind = "ConfigMap" ∧
    ([c9cfg].all fun c2 => !(c2.kind == "Secret")) = true :=
  ⟨by decide, by decide, rfl, by decide⟩

/-- C9 (amended): a `VOL_MISSING` issue (mojibake-Medium severity, on
the producer's file) is emitted for a volume reference iff its truthy
reference name matches no config record by name and namespace alone —
the record's kind (ConfigMap vs Secret) is not consulted. -/
theorem c9_vol_missing_amended (configs : List SynConfig) (p : SynProducer)
    (refs : List Yaml) (out : List AuditIssue)
    (hrefs : mapME volRefName p.volumes = .ok refs)
    (h : volMissingIssues configs p = .ok out) :
    out = (refs.map (volPure configs p)).join ∧
    (∀ iss ∈ out, iss.code = "VOL_MISSING" ∧ iss.severity = synMedSev ∧
      iss.file = p.file) ∧
    (∀ ref, truthy ref = true →
      (volPure configs p ref = [] ↔ ∃ c2 ∈ configs, c2.name = ref ∧ c2.ns = p.ns)) := by
  have hfold := volFold_ok configs p p.volumes refs [] hrefs
  unfold volMissingIssues at h
  rw [hfold] at h
  injection h with h
  have hout : out = (refs.map (volPure configs p)).join := by simpa using h.symm
  refine ⟨hout, ?_, ?_⟩
  · intro iss hiss
    rw [hout] at hiss
    obtain ⟨l, hl, hiss⟩ := List.mem_join.mp hiss
    obtain ⟨ref, href, rfl⟩ := List.mem_map.mp hl
    unfold volPure at hiss
    split at hiss
    · rw [List.mem_singleton] at hiss
      subst hiss
      exact ⟨rfl, rfl, rfl⟩
    · cases hiss
  · intro ref htr
    unfold volPure
    rw [htr]
    cases ha : configs.any (fun c2 => c2.name == ref && c2.ns == p.ns) with
    | true =>
      simp only [ha, Bool.not_true, Bool.and_false, Bool.false_eq_true, if_false]
      simp only [List.any_eq_true, Bool.and_eq_true, beq_iff_eq] at ha
      simpa using ha
    | false =>
      simp only [ha, Bool.not_false, Bool.and_true, if_true]
      constructor
      · intro hx
        cases hx
      · rintro ⟨c2, hc2, hn, hns⟩
        exfalso
        have : configs.any (fun c2 => c2.name == ref && c2.ns == p.ns) = true := by
          rw [List.any_eq_true]
          exact ⟨c2, hc2, by simp [hn, hns]⟩
        rw [this] at ha
        cases ha

/-- Witness for C9 (amended): the counterexample corpus instantiated in
the amended characterization. -/
theorem c9_vol_missing_amended_witness :
    ([] : List AuditIssue) = (([Yaml.str "x"].map (volPure [c9cfg] c9prod)).join) ∧
    (∀ iss ∈ ([] : List AuditIssue), iss.code = "VOL_MISSING" ∧
      iss.severity = synMedSev ∧ iss.file = c9prod.file) ∧
    (∀ ref, truthy ref = true →
      (volPure [c9cfg] c9prod ref = [] ↔
        ∃ c2 ∈ [c9cfg], c2.name = ref ∧ c2.ns = c9prod.ns)) :=
  c9_vol_missing_amended [c9cfg] c9prod [.str "x"] [] (by decide) (by decide)

/-- `anyInE` over a list container computes a pure double-any. -/
theorem anyInE_arr (keys : List String) (vs : List Yaml) :
    anyInE keys (.arr vs) = .ok (keys.any fun k => vs.any (fun y => y == Yaml.str k)) := by
  induction keys with
  | nil => rfl
  | cons k ks ih =>
    unfold anyInE
    simp only [pyInE, ok_bind]
    cases hk : vs.any (fun y => y == Yaml.str k) with
    | true => simp [hk, pure_ok]
    | false => simp [hk, ih]

/-- `wildBothE` over list containers computes the pure conjunction. -/
theorem wildBothE_arr (vs rs : List Yaml) :
    wildBothE (.arr vs) (.arr rs) =
      .ok (vs.any (fun y => y == Yaml.str "*") && rs.any (fun y => y == Yaml.str "*")) := by
  unfold wildBothE
  simp only [pyInE, ok_bind]
  cases hv : vs.any (fun y => y == Yaml.str "*") with
  | true => simp [hv]
  | false => simp [hv, pure_ok]

/-- `secretReadE` over list containers computes the pure conjunction. -/
theorem secretReadE_arr (vs rs : List Yaml) :
    secretReadE (.arr vs) (.arr rs) =
      .ok (rs.any (fun y => y == Yaml.str "secrets") &&
        (["*", "get", "list", "watch"].any fun k => vs.any (fun y => y == Yaml.str k))) := by
  unfold secretReadE
  simp only [pyInE, ok_bind]
  cases hsec : rs.any (fun y => y == Yaml.str "secrets") with
  | true => simp [hsec, anyInE_arr]
  | false => simp [hsec, pure_ok]

/-- On a shaped rule the RBAC body computes its pure value. -/
theorem rbacRule_shaped (kind : Option Yaml) (name : Yaml) {rule : Yaml}
    (hs : ruleShaped rule = true) :
    rbacRuleFindings kind name rule = .ok (rbacRulePure kind name rule) := by
  cases rule with
  | nul => simp [ruleShaped] at hs
  | bool b => simp [ruleShaped] at hs
  | int n => simp [ruleShaped] at hs
  | str s => simp [ruleShaped] at hs
  | arr xs => simp [ruleShaped] at hs
  | map rm =>
    simp only [ruleShaped, Bool.and_eq_true] at hs
    obtain ⟨hs1, hs2⟩ := hs
    cases hv : (rm.lookup "verbs").getD (.arr []) with
    | arr vs =>
      cases hr : (rm.lookup "resources").getD (.arr []) with
      | arr rs =>
        have hv2 : Yaml.getDE (.map rm) "verbs" (.arr []) = .ok (.arr vs) := by
          simp [Yaml.getDE, Yaml.getE, pure_ok, Bind.bind, Except.bind, hv]
        have hr2 : Yaml.getDE (.map rm) "resources" (.arr []) = .ok (.arr rs) := by
          simp [Yaml.getDE, Yaml.getE, pure_ok, Bind.bind, Except.bind, hr]
        have hwild : rbacWild (.map rm) =
            (vs.any (fun y => y == Yaml.str "*") && rs.any (fun y => y == Yaml.str "*")) := by
          simp only [rbacWild]
          rw [hv, hr]
        have hsecr : rbacSecretRead (.map rm) =
            (rs.any (fun y => y == Yaml.str "secrets") &&
              (["*", "get", "list", "watch"].any fun k =>
                vs.any (fun y => y == Yaml.str k))) := by
          simp only [rbacSecretRead]
          rw [hv, hr]
        unfold rbacRuleFindings rbacRulePure
        rw [hv2, ok_bind, hr2, ok_bind, wildBothE_arr, ok_bind, hwild, hsecr]
        cases hw : (vs.any (fun y => y == Yaml.str "*") && rs.any (fun y => y == Yaml.str "*")) with
        | true =>
          rw [if_pos rfl, if_pos rfl]
          rfl
        | false =>
          rw [if_neg (by simp), if_neg (by simp), secretReadE_arr, ok_bind]
          cases hsr : (rs.any (fun y => y == Yaml.str "secrets") &&
              (["*", "get", "list", "watch"].any fun k =>
                vs.any (fun y => y == Yaml.str k))) with
          | true =>
            rw [if_pos rfl, if_pos rfl]
            rfl
          | false =>
            rw [if_neg (by simp), if_neg (by simp)]
            rfl
      | nul => rw [hr] at hs2; cases hs2
      | bool b => rw [hr] at hs2; cases hs2
      | int n => rw [hr] at hs2; cases hs2
      | str s => rw [hr] at hs2; cases hs2
      | map m2 => rw [hr] at hs2; cases hs2
    | nul => rw [hv] at hs1; cases hs1
    | bool b => rw [hv] at hs1; cases hs1
    | int n => rw [hv] at hs1; cases hs1
    | str s => rw [hv] at hs1; cases hs1
    | map m2 => rw [hv] at hs1; cases hs1

/-- C8 counterexample: `c8rule` satisfies both the wildcard and the
secrets-read conditions, yet the check yields only `RBAC_WILD` — not
both findings — because of the source's `elif`. -/
theorem c8_rbac_counterexample :
    (check_rbac_security c8doc).map (List.map Finding.code) = .ok ["RBAC_WILD"] ∧
    rbacWild c8rule = true ∧ rbacSecretRead c8rule = true :=
  ⟨by decide, by decide, by decide⟩

/-- C8 (amended): per rule of a role-like resource, `*` in both verbs
and resources yields the `RBAC_WILD` (High) finding; otherwise a
`secrets` read grant via `*`/`get`/`list`/`watch` yields the
`RBAC_SECRET` (Medium) finding; a rule satisfying both conditions
yields only `RBAC_WILD`. -/
theorem c8_rbac_amended (resource : Yaml) (fs : List Finding) (kind : Option Yaml)
    (name : Yaml) (rules : List Yaml)
    (hkind : resource.getE "kind" = .ok kind)
    (hrole : kind = some (Yaml.str "Role") ∨ kind = some (Yaml.str "ClusterRole"))
    (hname : mdNameOf resource = .ok name)
    (hrules : rbacRulesOf resource = .ok (.arr rules))
    (hshape : ∀ r ∈ rules, ruleShaped r = true)
    (h : check_rbac_security resource = .ok fs) :
    fs = (rules.map (rbacRulePure kind name)).join ∧
    (∀ r ∈ rules, rbacWild r = true →
      rbacRulePure kind name r = [rbacWildFinding kind name r]) ∧
    (∀ r ∈ rules, rbacWild r = false → rbacSecretRead r = true →
      rbacRulePure kind name r = [rbacSecretFinding kind name r]) ∧
    (∀ fd ∈ fs, (fd.code = "RBAC_WILD" ∧ fd.severity = HIGH) ∨
      (fd.code = "RBAC_SECRET" ∧ fd.severity = MEDIUM)) := by
  unfold check_rbac_security at h
  rw [hkind, ok_bind, hname, ok_bind, hrules, ok_bind] at h
  have hcond : (kind == some (Yaml.str "Role") || kind == some (Yaml.str "ClusterRole")) = true := by
    rcases hrole with rfl | rfl <;> simp
  rw [hcond, if_pos rfl] at h
  rw [show asListE (.arr rules) = .ok rules from rfl, ok_bind] at h
  have hbody : ∀ r ∈ rules, ∀ acc,
      (fun (acc : List Finding) rule => do
        let fs ← rbacRuleFindings kind name rule
        pure (acc ++ fs)) acc r = .ok (acc ++ rbacRulePure kind name r) := by
    intro r hr acc
    show (do
      let fs ← rbacRuleFindings kind name r
      pure (acc ++ fs)) = .ok (acc ++ rbacRulePure kind name r)
    rw [rbacRule_shaped kind name (hshape r hr), ok_bind, pure_ok]
  rw [foldlM_append_ok hbody []] at h
  injection h with h
  have hout : fs = (rules.map (rbacRulePure kind name)).join := by simpa using h.symm
  refine ⟨hout, ?_, ?_, ?_⟩
  · intro r _ hw
    unfold rbacRulePure
    rw [hw, if_pos rfl]
  · intro r _ hw hsec
    unfold rbacRulePure
    rw [hw, hsec]
    simp
  · intro fd hfd
    rw [hout] at hfd
    obtain ⟨l, hl, hfd⟩ := List.mem_join.mp hfd
    obtain ⟨r, hr, rfl⟩ := List.mem_map.mp hl
    unfold rbacRulePure at hfd
    split at hfd
    · rw [List.mem_singleton] at hfd
      subst hfd
      left
      refine ⟨?_, rfl⟩
      show upperStr "RBAC_WILD" = "RBAC_WILD"
      decide
    · split at hfd
      · rw [List.mem_singleton] at hfd
        subst hfd
        right
        refine ⟨?_, rfl⟩
        show upperStr "RBAC_SECRET" = "RBAC_SECRET"
        decide
      · cases hfd

/-- Witness for C8 (amended): the dual-condition ClusterRole
instantiated in the amended characterization. -/
theorem c8_rbac_amended_witness :
    ([rbacWildFinding (some (Yaml.str "ClusterRole")) (Yaml.str "star") c8rule] =
      (([c8rule].map (rbacRulePure (some (Yaml.str "ClusterRole")) (Yaml.str "star"))).join) ∧
    (∀ r ∈ [c8rule], rbacWild r = true →
      rbacRulePure (some (Yaml.str "ClusterRole")) (Yaml.str "star") r =
        [rbacWildFinding (some (Yaml.str "ClusterRole")) (Yaml.str "star") r]) ∧
    (∀ r ∈ [c8rule], rbacWild r = false → rbacSecretRead r = true →
      rbacRulePure (some (Yaml.str "ClusterRole")) (Yaml.str "star") r =
        [rbacSecretFinding (some (Yaml.str "ClusterRole")) (Yaml.str "star") r]) ∧
    (∀ fd ∈ [rbacWildFinding (some (Yaml.str "ClusterRole")) (Yaml.str "star") c8rule],
      (fd.code = "RBAC_WILD" ∧ fd.severity = HIGH) ∨
      (fd.code = "RBAC_SECRET" ∧ fd.severity = MEDIUM))) :=
  c8_rbac_amended c8doc
    [rbacWildFinding (some (Yaml.str "ClusterRole")) (Yaml.str "star") c8rule]
    (some (Yaml.str "ClusterRole")) (Yaml.str "star") [c8rule]
    (by decide) (Or.inr rfl) (by decide) (by decide) (by decide) (by decide)

/-- A list starts with itself prepended to anything. -/
theorem listStartsWith_append (n y : List Char) : listStartsWith n (n ++ y) = true := by
  induction n with
  | nil => rfl
  | cons c cs ih => simp [listStartsWith, ih]

/-- A prefix is a contained run. -/
theorem listContainsSub_of_startsWith {n h : List Char}
    (hs : listStartsWith n h = true) : listContainsSub n h = true := by
  cases h with
  | nil =>
    cases n with
    | nil => rfl
    | cons c cs => simp [listStartsWith] at hs
  | cons c t => simp [listContainsSub, hs]

/-- A middle segment is a contained run. -/
theorem listContainsSub_sandwich (x n y : List Char) :
    listContainsSub n (x ++ n ++ y) = true := by
  induction x with
  | nil =>
    simp only [List.nil_append]
    exact listContainsSub_of_startsWith (listStartsWith_append n y)
  | cons c cs ih =>
    show (listStartsWith n (c :: (cs ++ n ++ y)) || listContainsSub n (cs ++ n ++ y)) = true
    rw [ih, Bool.or_true]

/-- A middle segment is a substring. -/
theorem substrOf_sandwich (x t y : String) : substrOf t (x ++ t ++ y) = true := by
  unfold substrOf
  have h1 : (x ++ t ++ y).toList = x.toList ++ t.toList ++ y.toList := by
    rw [show (x ++ t ++ y).toList = (x ++ t).toList ++ y.toList from String.data_append _ _,
      show (x ++ t).toList = x.toList ++ t.toList from String.data_append _ _]
  rw [h1]
  exact listContainsSub_sandwich x.toList t.toList y.toList

/-- Setting a key makes it look up to the new value. -/
theorem setAssoc_lookup_self (m : List (String × Yaml)) (k : String) (x : Yaml) :
    (setAssoc m k x).lookup k = some x := by
  induction m with
  | nil => simp [setAssoc, List.lookup]
  | cons kv rest ih =>
    obtain ⟨k1, v1⟩ := kv
    unfold setAssoc
    by_cases hk : (k1 == k) = true
    · rw [if_pos hk]
      simp [List.lookup]
    · rw [if_neg hk]
      simp only [List.lookup]
      rw [show (k == k1) = false from by
        simp only [beq_eq_false_iff_ne, ne_eq]
        intro h
        exact hk (by simp [h])]
      exact ih

/-- Setting one key leaves other keys' lookups unchanged. -/
theorem setAssoc_lookup_other (m : List (String × Yaml)) (k k2 : String) (x : Yaml)
    (hne : k ≠ k2) : (setAssoc m k x).lookup k2 = m.lookup k2 := by
  have hf : (k2 == k) = false := by
    simp only [beq_eq_false_iff_ne, ne_eq]
    exact fun h => hne h.symm
  induction m with
  | nil =>
    simp only [setAssoc, List.lookup]
    rw [hf]
  | cons kv rest ih =>
    obtain ⟨k1, v1⟩ := kv
    unfold setAssoc
    by_cases hk : (k1 == k) = true
    · rw [if_pos hk]
      have hk1 : k1 = k := by simpa using hk
      subst hk1
      simp only [List.lookup]
      rw [hf]
    · rw [if_neg hk]
      simp only [List.lookup]
      cases hq : (k2 == k1) with
      | true => rfl
      | false => exact ih

/-- C5: a document whose `apiVersion` is in the deprecation table gets
exactly one `API_DEPRECATED` (Medium) finding whose message suggests
the replacement (per-kind entry, else `default` entry, else plain
value); the auto-fix overwrites `apiVersion` with that replacement
unless it is falsy or carries the `REMOVED` sentinel prefix, in which
case the document is left unchanged. -/
theorem c5_api_deprecated (doc : Yaml) (a : String) (mapping : DepVal)
    (kindO : Option Yaml) (f : Option Finding) (fixed : Yaml)
    (hapi : doc.getE "apiVersion" = .ok (some (.str a)))
    (hmap : DEPRECATIONS.lookup a = some mapping)
    (hkind : doc.getE "kind" = .ok kindO)
    (hf : deprecationFinding doc = .ok f)
    (hfix : applyApiFix doc = .ok fixed) :
    (∃ fd, f = some fd ∧ fd.code = "API_DEPRECATED" ∧ fd.severity = MEDIUM ∧
      substrOf (optStr (depTarget mapping (some (kindO.getD (Yaml.str "Object")))))
        fd.msg = true) ∧
    (∀ na, depTarget mapping kindO = some na → na.isEmpty = false →
      listStartsWith "REMOVED".toList na.toList = false →
      fixed.getE "apiVersion" = .ok (some (.str na))) ∧
    (∀ na, depTarget mapping kindO = some na →
      (na.isEmpty = true ∨ listStartsWith "REMOVED".toList na.toList = true) →
      fixed = doc) ∧
    (depTarget mapping kindO = none → fixed = doc) := by
  have hkd : doc.getDE "kind" (.str "Object") = .ok (kindO.getD (Yaml.str "Object")) := by
    unfold Yaml.getDE
    rw [hkind, ok_bind]
    rfl
  constructor
  · -- the finding
    unfold deprecationFinding at hf
    rw [hapi, ok_bind, hkd, ok_bind] at hf
    obtain ⟨md, hmd, hf⟩ := except_bind_ok hf
    obtain ⟨nm, hnm, hf⟩ := except_bind_ok hf
    dsimp only at hf
    rw [hmap] at hf
    have hfval : f = some (add_finding "API_DEPRECATED" MEDIUM
        ("🛡️ " ++ pyStr (kindO.getD (Yaml.str "Object")) ++ " " ++ sq ++ pyStr nm ++ sq
          ++ " uses " ++ sq ++ a ++ sq ++ ". Upgrade to " ++ sq
          ++ optStr (depTarget mapping (some (kindO.getD (Yaml.str "Object")))) ++ sq ++ ".")
        (get_line doc)) := by
      have h2 := hf
      injection h2 with h2
      exact h2.symm
    refine ⟨_, hfval, ?_, rfl, ?_⟩
    · show upperStr "API_DEPRECATED" = "API_DEPRECATED"
      decide
    · show substrOf _ ("🛡️ " ++ pyStr (kindO.getD (Yaml.str "Object")) ++ " " ++ sq
        ++ pyStr nm ++ sq ++ " uses " ++ sq ++ a ++ sq ++ ". Upgrade to " ++ sq
        ++ optStr (depTarget mapping (some (kindO.getD (Yaml.str "Object")))) ++ sq ++ ".") = true
      rw [String.append_assoc ("🛡️ " ++ pyStr (kindO.getD (Yaml.str "Object")) ++ " " ++ sq
        ++ pyStr nm ++ sq ++ " uses " ++ sq ++ a ++ sq ++ ". Upgrade to " ++ sq
        ++ optStr (depTarget mapping (some (kindO.getD (Yaml.str "Object"))))) sq "."]
      exact substrOf_sandwich _ _ _
  · -- the fix
    unfold applyApiFix at hfix
    rw [hkind, ok_bind, hapi, ok_bind] at hfix
    dsimp only at hfix
    rw [hmap] at hfix
    dsimp only at hfix
    cases hdt : depTarget mapping kindO with
    | none =>
      rw [hdt] at hfix
      dsimp only at hfix
      have hfd : fixed = doc := by
        have h2 := hfix
        injection h2 with h2
        exact h2.symm
      refine ⟨?_, ?_, fun _ => hfd⟩
      · intro na hna _ _
        exact absurd hna (by simp)
      · intro na hna _
        exact absurd hna (by simp)
    | some na =>
      rw [hdt] at hfix
      dsimp only at hfix
      cases hcond : (na.isEmpty || listStartsWith "REMOVED".toList na.toList) with
      | true =>
        rw [if_pos (by rw [hcond]) ] at hfix
        have hfd : fixed = doc := by
          have h2 := hfix
          injection h2 with h2
          exact h2.symm
        refine ⟨?_, ?_, fun hnone => absurd hnone (by simp)⟩
        · intro na2 hna2 hne hnr
          injection hna2 with hna2
          subst hna2
          rw [hne, hnr] at hcond
          simp at hcond
        · intro na2 _ _
          exact hfd
      | false =>
        rw [if_neg (by rw [hcond]; exact Bool.false_ne_true)] at hfix
        obtain ⟨p1, hp1, hfix⟩ := except_bind_ok hfix
        -- doc must be a mapping for setKeyE to succeed
        have hdm : ∃ dm, doc = Yaml.map dm ∧ p1 = Yaml.map (setAssoc dm "apiVersion" (.str na)) := by
          cases doc with
          | map dm =>
            refine ⟨dm, rfl, ?_⟩
            unfold setKeyE at hp1
            injection hp1 with hp1
            exact hp1.symm
          | nul => exact absurd hp1 (by simp [setKeyE])
          | bool b => exact absurd hp1 (by simp [setKeyE])
          | int n => exact absurd hp1 (by simp [setKeyE])
          | str s => exact absurd hp1 (by simp [setKeyE])
          | arr xs => exact absurd hp1 (by simp [setKeyE])
        obtain ⟨dm, hdoc, hp1m⟩ := hdm
        -- the final document carries apiVersion = na in every branch
        have hfinal : fixed.getE "apiVersion" = .ok (some (.str na)) := by
          have hp1api : p1.getE "apiVersion" = .ok (some (.str na)) := by
            rw [hp1m]
            show Except.ok ((setAssoc dm "apiVersion" (Yaml.str na)).lookup "apiVersion") = _
            rw [setAssoc_lookup_self]
          cases hc2 : (na == "apps/v1" && kindO == some (Yaml.str "Deployment")) with
          | false =>
            rw [hc2] at hfix
            rw [if_neg Bool.false_ne_true] at hfix
            have h2 := hfix
            injection h2 with h2
            rw [← h2]
            exact hp1api
          | true =>
            rw [hc2, if_pos rfl] at hfix
            obtain ⟨spec, hspec, hfix⟩ := except_bind_ok hfix
            obtain ⟨hasSel, hhs, hfix⟩ := except_bind_ok hfix
            cases hasSel with
            | true =>
              rw [if_pos rfl] at hfix
              have h2 := hfix
              injection h2 with h2
              rw [← h2]
              exact hp1api
            | false =>
              rw [if_neg Bool.false_ne_true] at hfix
              obtain ⟨spec2, hspec2, hfix⟩ := except_bind_ok hfix
              obtain ⟨tmpl, htmpl, hfix⟩ := except_bind_ok hfix
              obtain ⟨md2, hmd2, hfix⟩ := except_bind_ok hfix
              obtain ⟨labels, hlab, hfix⟩ := except_bind_ok hfix
              cases labels with
              | none =>
                have h2 := hfix
                injection h2 with h2
                rw [← h2]
                exact hp1api
              | some lv =>
                dsimp only at hfix
                cases hlv : truthy lv with
                | false =>
                  rw [hlv] at hfix
                  rw [if_neg Bool.false_ne_true] at hfix
                  have h2 := hfix
                  injection h2 with h2
                  rw [← h2]
                  exact hp1api
                | true =>
                  rw [hlv, if_pos rfl] at hfix
                  obtain ⟨specOld, hspecOld, hfix⟩ := except_bind_ok hfix
                  obtain ⟨specNew, hspecNew, hfix⟩ := except_bind_ok hfix
                  -- hfix : setKeyE p1 "spec" specNew = .ok fixed
                  rw [hp1m] at hfix
                  unfold setKeyE at hfix
                  have h2 := hfix
                  injection h2 with h2
                  rw [← h2]
                  show Except.ok ((setAssoc (setAssoc dm "apiVersion" (Yaml.str na)) "spec"
                    specNew).lookup "apiVersion") = _
                  rw [setAssoc_lookup_other _ _ _ _ (by decide)]
                  rw [setAssoc_lookup_self]
        refine ⟨?_, ?_, fun hnone => absurd hnone (by simp)⟩
        · intro na2 hna2 _ _
          injection hna2 with hna2
          subst hna2
          exact hfinal
        · intro na2 hna2 hor
          injection hna2 with hna2
          subst hna2
          rcases hor with he | hr
          · rw [he] at hcond
            simp at hcond
          · rw [hr] at hcond
            simp at hcond


/-- C5 witness: the theorem applied to a concrete PodDisruptionBudget document
on policy/v1beta1, whose fix rewrites apiVersion to policy/v1. -/
theorem c5_api_deprecated_witness :
    deprecationFinding c5wDoc = Except.ok c5wFinding ∧
    applyApiFix c5wDoc = Except.ok c5wFixed ∧
    c5wFixed.getE "apiVersion" = Except.ok (some (Yaml.str "policy/v1")) :=
  ⟨by decide, by decide,
    (c5_api_deprecated c5wDoc "policy/v1beta1" (.plain "policy/v1")
      (some (.str "PodDisruptionBudget")) c5wFinding c5wFixed
      (by decide) (by decide) (by decide) (by decide) (by decide)).2.1
      "policy/v1" rfl (by decide) (by decide)⟩

/-- On the Except monad, pure is the ok constructor. -/
theorem pure_ok2 {α : Type _} (a : α) : (pure a : Except Unit α) = .ok a := rfl

/-- On shaped documents the monadic service-resolution predicate of
check_ingress_service_alignment agrees with its pure counterpart. -/
theorem svcPred_shaped (ins tgt : Yaml) {d : Yaml} (hd : docShape d = true) :
    svcPred ins tgt d = .ok (resolvesService ins tgt d) := by
  cases d with
  | nul => simp [docShape] at hd
  | bool b => simp [docShape] at hd
  | int n => simp [docShape] at hd
  | str s => simp [docShape] at hd
  | arr xs => simp [docShape] at hd
  | map m =>
    simp only [svcPred, resolvesService, Yaml.getE, Yaml.getDE, ok_bind, pure_ok2]
    by_cases hk : m.lookup "kind" = some (Yaml.str "Service")
    · simp only [docShape] at hd
      rcases hmd : m.lookup "metadata" with _ | md
      · simp [hk, hmd, Bind.bind, Except.bind, optY]
        by_cases ht : Yaml.nul = tgt
        · simp [ht]
        · simp [ht, Ne.symm ht]
      · cases md with
        | map mdm =>
          simp [hk, hmd, Bind.bind, Except.bind]
          by_cases hnm : optY (mdm.lookup "name") = tgt
          · simp [hnm]
          · simp [hnm, Ne.symm hnm]
        | nul => rw [hmd] at hd; simp at hd
        | bool b => rw [hmd] at hd; simp at hd
        | int n => rw [hmd] at hd; simp at hd
        | str s => rw [hmd] at hd; simp at hd
        | arr xs => rw [hmd] at hd; simp at hd
    · simp [hk]



/-- C6 counterexample: one healed file whose two documents are an Ingress
pointing at a missing Service plus a ConfigMap already yields the
INGRESS_ORPHAN finding through the live per-file corpus, so the gate
counts documents of the current file, never scanned files. -/
theorem c6_ingress_counterexample :
    [c6ing, c6cm].length = 2 ∧
    Except.map (List.map Finding.code) (scanIngressFile [c6ing, c6cm])
      = .ok ["INGRESS_ORPHAN"] ∧
    Except.map (List.map Finding.severity) (scanIngressFile [c6ing, c6cm])
      = .ok [MEDIUM] ∧
    scanIngressFile [c6ing] = .ok [] := by
  refine ⟨rfl, ?_, ?_, ?_⟩ <;> decide

/-- C6 (amended): an ingress backend with a truthy service name resolves
that service in the ingress's namespace against the current file's
documents; resolved, a truthy backend port absent from the service's
port numbers (numeric backend) or port names (named backend) gives one
INGRESS_PORT_MISMATCH Critical finding, a matching or falsy port gives
none; unresolved, one INGRESS_ORPHAN Medium finding is emitted exactly
when the corpus holds more than one document. -/
theorem c6_ingress_amended (doc iname ins : Yaml) (all_docs : List Yaml)
    (svcName : String) (portY tp : Yaml) (fs : List Finding)
    (hname : svcName.isEmpty = false)
    (htp : (match portY with
      | Yaml.map m => optY (m.lookup "number")
      | _ => portY) = tp)
    (hshape : ∀ d ∈ all_docs, docShape d = true)
    (h : ingressPathCheck doc iname ins all_docs (pathForP svcName portY) = .ok fs) :
    (all_docs.find? (resolvesService ins (.str svcName)) = none →
      (1 < all_docs.length → fs.map Finding.code = ["INGRESS_ORPHAN"] ∧
        fs.map Finding.severity = [MEDIUM]) ∧
      (¬ 1 < all_docs.length → fs = [])) ∧
    (∀ svcDoc nums names,
      all_docs.find? (resolvesService ins (.str svcName)) = some svcDoc →
      portsOf svcDoc = .ok (nums, names) →
      (truthy tp = false → fs = []) ∧
      (∀ n : Int, tp = .int n →
        (nums.contains (Yaml.int n) = true → fs = []) ∧
        ((n == 0) = false → nums.contains (Yaml.int n) = false →
          fs.map Finding.code = ["INGRESS_PORT_MISMATCH"] ∧
          fs.map Finding.severity = [CRITICAL])) ∧
      (∀ s : String, tp = .str s →
        (names.contains (Yaml.str s) = true → fs = []) ∧
        (s.isEmpty = false → names.contains (Yaml.str s) = false →
          fs.map Finding.code = ["INGRESS_PORT_MISMATCH"] ∧
          fs.map Finding.severity = [CRITICAL]))) := by
  have hfind : findME all_docs (svcPred ins (.str svcName))
      = .ok (all_docs.find? (resolvesService ins (.str svcName))) :=
    findME_find? (fun d hd => svcPred_shaped ins (.str svcName) (hshape d hd))
  have htm : ∀ (a : String × Yaml) (l : List (String × Yaml)),
      truthy (Yaml.map (a :: l)) = true := fun _ _ => rfl
  have hts : truthy (Yaml.str svcName) = true := by simp [truthy, hname]
  unfold ingressPathCheck at h
  simp only [pathForP, Yaml.getDE, Yaml.getE, ok_bind, pure_ok2, List.lookup,
    beq_self_eq_true, Option.getD, pyOr, htm, hts, optTruthy, optY, bne, hname,
    eq_self_iff_true, if_true, Bool.not_true, Bool.not_false,
    Bool.false_eq_true, if_false, hfind, String.reduceBEq] at h
  obtain ⟨tp0, htp0, h⟩ := except_bind_ok h
  have htpeq : tp0 = tp := by
    cases portY with
    | map m =>
      dsimp only at htp0
      injection htp0 with he
      rw [← he]
      exact htp
    | nul =>
      injection htp0 with he
      rw [← he]
      exact htp
    | bool b =>
      injection htp0 with he
      rw [← he]
      exact htp
    | int n =>
      injection htp0 with he
      rw [← he]
      exact htp
    | str s =>
      injection htp0 with he
      rw [← he]
      exact htp
    | arr xs =>
      injection htp0 with he
      rw [← he]
      exact htp
  subst htpeq
  constructor
  · intro hnone
    rw [hnone] at h
    dsimp only at h
    constructor
    · intro hlen
      have hne : all_docs.isEmpty = false := by
        cases all_docs with
        | nil => simp at hlen
        | cons a t => rfl
      rw [if_pos (by simp [hne, hlen])] at h
      have h2 := h
      injection h2 with h2
      rw [← h2]
      exact ⟨by show [upperStr "INGRESS_ORPHAN"] = ["INGRESS_ORPHAN"]; decide, rfl⟩
    · intro hlen
      rw [if_neg (by simp [hlen])] at h
      have h2 := h
      injection h2 with h2
      exact h2.symm
  · intro svcDoc nums names hsome hpp
    rw [hsome] at h
    dsimp only at h
    rw [hpp, ok_bind] at h
    dsimp only at h
    refine ⟨?_, ?_, ?_⟩
    · intro htf
      rw [if_neg (by simp [htf])] at h
      have h2 := h
      injection h2 with h2
      exact h2.symm
    · intro n htn
      subst htn
      dsimp only at h
      constructor
      · intro hin
        rw [if_neg (by rw [hin]; simp)] at h
        have h2 := h
        injection h2 with h2
        exact h2.symm
      · intro hn0 hnotin
        have htt : truthy (Yaml.int n) = true := by simp [truthy, bne, hn0]
        rw [if_pos (by rw [htt, hnotin]; decide)] at h
        have h2 := h
        injection h2 with h2
        rw [← h2]
        exact ⟨by show [upperStr "INGRESS_PORT_MISMATCH"] = ["INGRESS_PORT_MISMATCH"]; decide,
          rfl⟩
    · intro s hstr
      subst hstr
      dsimp only at h
      constructor
      · intro hin
        rw [if_neg (by rw [hin]; simp)] at h
        have h2 := h
        injection h2 with h2
        exact h2.symm
      · intro hse hnotin
        have htt : truthy (Yaml.str s) = true := by simp [truthy, hse]
        rw [if_pos (by rw [htt, hnotin]; decide)] at h
        have h2 := h
        injection h2 with h2
        rw [← h2]
        exact ⟨by show [upperStr "INGRESS_PORT_MISMATCH"] = ["INGRESS_PORT_MISMATCH"]; decide,
          rfl⟩

/-- C6 witness: the amended theorem applied to a concrete file corpus
holding one Service web-svc exposing port 80 named http, once against a
mismatching numeric backend port 8080 and once against the matching
named backend port http. -/
theorem c6_ingress_amended_witness :
    (ingressPathCheck Yaml.nul (Yaml.str "ing") (Yaml.str "default") [c6svc]
      (pathForP "web-svc" (.map [("number", .int 8080)])) = Except.ok c6wFs ∧
     c6wFs.map Finding.code = ["INGRESS_PORT_MISMATCH"] ∧
     c6wFs.map Finding.severity = [CRITICAL]) ∧
    (ingressPathCheck Yaml.nul (Yaml.str "ing") (Yaml.str "default") [c6svc]
      (pathForP "web-svc" (.str "http")) = Except.ok [] ∧ ([] : List Finding) = []) :=
  ⟨⟨by decide,
    (((c6_ingress_amended Yaml.nul (Yaml.str "ing") (Yaml.str "default") [c6svc]
      "web-svc" (.map [("number", .int 8080)]) (.int 8080) c6wFs (by decide) (by decide)
      (by decide) (by decide)).2 c6svc [Yaml.int 80] [Yaml.str "http"]
      (by decide) (by decide)).2.1 8080 rfl).2 (by decide) (by decide)⟩,
   ⟨by decide,
    (((c6_ingress_amended Yaml.nul (Yaml.str "ing") (Yaml.str "default") [c6svc]
      "web-svc" (.str "http") (.str "http") [] (by decide) (by decide)
      (by decide) (by decide)).2 c6svc [Yaml.int 80] [Yaml.str "http"]
      (by decide) (by decide)).2.2 "http" rfl).1 (by decide)⟩⟩

/-- On shaped documents the monadic workload-resolution predicate of
audit_hpa agrees with its pure counterpart. -/
theorem workloadPred_shaped (t_name : Option Yaml) {d : Yaml} (hd : docShape d = true) :
    workloadPred t_name d = .ok (resolvesWorkload t_name d) := by
  cases d with
  | nul => simp [docShape] at hd
  | bool b => simp [docShape] at hd
  | int n => simp [docShape] at hd
  | str s => simp [docShape] at hd
  | arr xs => simp [docShape] at hd
  | map m =>
    simp only [workloadPred, resolvesWorkload, Yaml.getE, Yaml.getDE, ok_bind, pure_ok2]
    simp only [docShape] at hd
    rcases hmd : m.lookup "metadata" with _ | md
    · by_cases hnm : (none : Option Yaml) = t_name
      · subst hnm
        simp [hmd, Bind.bind, Except.bind]
      · simp [hmd, Bind.bind, Except.bind, hnm, Ne.symm hnm]
    · cases md with
      | map mdm =>
        by_cases hnm : mdm.lookup "name" = t_name
        · simp [hmd, Bind.bind, Except.bind, hnm]
        · simp [hmd, Bind.bind, Except.bind, hnm, Ne.symm hnm]
      | nul => rw [hmd] at hd; simp at hd
      | bool b => rw [hmd] at hd; simp at hd
      | int n => rw [hmd] at hd; simp at hd
      | str s => rw [hmd] at hd; simp at hd
      | arr xs => rw [hmd] at hd; simp at hd

/-- On a shaped container and a scalar metric the monadic per-pair
HPA check agrees with its pure counterpart. -/
theorem hpaPairFinding_shaped {metric c : Yaml} (hc : containerShaped c = true)
    (hm : metricScalar metric = true) :
    hpaPairFinding metric c = .ok (hpaPairPure metric c) := by
  cases c with
  | nul => simp [containerShaped] at hc
  | bool b => simp [containerShaped] at hc
  | int n => simp [containerShaped] at hc
  | str s => simp [containerShaped] at hc
  | arr xs => simp [containerShaped] at hc
  | map cm =>
    simp only [containerShaped] at hc
    unfold hpaPairFinding hpaPairPure reqHas cnameOf
    simp only [Yaml.getDE, Yaml.getE, ok_bind, pure_ok2]
    cases hr : (cm.lookup "resources").getD (.map []) with
    | map rm =>
      rw [hr] at hc
      dsimp only at hc
      cases hq : (rm.lookup "requests").getD (.map []) with
      | map qm =>
        cases metric with
        | str k =>
          dsimp only
          simp only [Bind.bind, Except.bind]
          rw [hq]
          simp only [pyInE]
          rw [apply_ite Except.ok]
        | nul => dsimp only; simp only [Bind.bind, Except.bind]; rw [hq]; simp [pyInE]
        | bool b => dsimp only; simp only [Bind.bind, Except.bind]; rw [hq]; simp [pyInE]
        | int n => dsimp only; simp only [Bind.bind, Except.bind]; rw [hq]; simp [pyInE]
        | arr xs => simp [metricScalar] at hm
        | map mm => simp [metricScalar] at hm
      | nul => rw [hq] at hc; simp at hc
      | bool b => rw [hq] at hc; simp at hc
      | int n => rw [hq] at hc; simp at hc
      | str s => rw [hq] at hc; simp at hc
      | arr xs => rw [hq] at hc; simp at hc
    | nul => rw [hr] at hc; simp at hc
    | bool b => rw [hr] at hc; simp at hc
    | int n => rw [hr] at hc; simp at hc
    | str s => rw [hr] at hc; simp at hc
    | arr xs => rw [hr] at hc; simp at hc

/-- The metric-times-container double loop computes the join of the
pure per-pair findings. -/
theorem hpaPairsFindings_ok {metrics containers : List Yaml}
    (hm : ∀ m ∈ metrics, metricScalar m = true)
    (hc : ∀ c ∈ containers, containerShaped c = true) :
    hpaPairsFindings metrics containers
      = .ok ((metrics.map
          (fun metric => (containers.map (hpaPairPure metric)).join)).join) := by
  unfold hpaPairsFindings
  have houter : ∀ metric ∈ metrics, ∀ acc : List Finding,
      containers.foldlM (fun acc2 c => do
        pure (acc2 ++ (← hpaPairFinding metric c))) acc
        = .ok (acc ++ (containers.map (hpaPairPure metric)).join) := by
    intro metric hmm acc
    refine foldlM_append_ok ?_ acc
    intro c hcc acc2
    rw [show (do pure (acc2 ++ (← hpaPairFinding metric c)) :
        Except Unit (List Finding))
      = (hpaPairFinding metric c >>= fun r => pure (acc2 ++ r)) from rfl,
      hpaPairFinding_shaped (hc c hcc) (hm metric hmm), ok_bind]
    rfl
  have := @foldlM_append_ok Yaml Finding
    (fun acc metric => containers.foldlM (fun acc2 c => do
      pure (acc2 ++ (← hpaPairFinding metric c))) acc)
    (fun metric => (containers.map (hpaPairPure metric)).join)
    metrics (fun metric hmm acc => houter metric hmm acc) []
  rw [this]
  simp

/-- Every finding a pure HPA pair check produces is HPA_MISSING_REQ of
High severity. -/
theorem hpaPairPure_mem {metric c : Yaml} {fd : Finding} (hfd : fd ∈ hpaPairPure metric c) :
    fd.code = "HPA_MISSING_REQ" ∧ fd.severity = HIGH := by
  unfold hpaPairPure at hfd
  by_cases hr : reqHas metric c = true
  · rw [if_pos hr] at hfd
    cases hfd
  · rw [if_neg hr] at hfd
    have hone := List.mem_singleton.mp hfd
    subst hone
    exact ⟨by show upperStr "HPA_MISSING_REQ" = "HPA_MISSING_REQ"; decide, rfl⟩

/-- C7 (amended): audit_hpa resolves the autoscaler target by
metadata.name equality and kind Deployment-or-StatefulSet only, over the
whole corpus, ignoring namespaces; unresolved gives one HPA_ORPHAN
Medium finding; resolved gives exactly the HPA_MISSING_REQ High findings
of the deduplicated resource metrics against each container lacking a
matching requests entry. -/
theorem c7_hpa_amended (hpa_doc : Yaml) (all_docs : List Yaml)
    (spec target : Yaml) (t_name : Option Yaml) (cpuT metricsY : Yaml)
    (mlist metrics : List Yaml) (fs : List Finding)
    (hkind : hpa_doc.getE "kind" = .ok (some (.str "HorizontalPodAutoscaler")))
    (hspec : hpa_doc.getDE "spec" (.map []) = .ok spec)
    (htgt : spec.getDE "scaleTargetRef" (.map []) = .ok target)
    (hnm : target.getE "name" = .ok t_name)
    (hcpu : spec.getDE "targetCPUUtilizationPercentage" Yaml.nul = .ok cpuT)
    (hmy : spec.getDE "metrics" (.arr []) = .ok metricsY)
    (hml : asListE metricsY = .ok mlist)
    (hmetrics : mlist.foldlM (fun acc m => do
        let ty ← m.getE "type"
        if ty == some (Yaml.str "Resource") then do
          let r ← getItemE m "resource"
          let nm ← getItemE r "name"
          pure (acc ++ [nm])
        else pure acc) (if truthy cpuT then [Yaml.str "cpu"] else []) = .ok metrics)
    (hshape : ∀ d ∈ all_docs, docShape d = true)
    (h : audit_hpa hpa_doc all_docs = .ok fs) :
    (all_docs.find? (resolvesWorkload t_name) = none →
      fs.map Finding.code = ["HPA_ORPHAN"] ∧ fs.map Finding.severity = [MEDIUM]) ∧
    (∀ w containers, all_docs.find? (resolvesWorkload t_name) = some w →
      containersOf w = .ok containers →
      (∀ c ∈ containers, containerShaped c = true) →
      (∀ m ∈ metrics.eraseDups, metricScalar m = true) →
      fs = (metrics.eraseDups.map
        (fun metric => (containers.map (hpaPairPure metric)).join)).join ∧
      ∀ fd ∈ fs, fd.code = "HPA_MISSING_REQ" ∧ fd.severity = HIGH) := by
  have hfind : findME all_docs (workloadPred t_name)
      = .ok (all_docs.find? (resolvesWorkload t_name)) :=
    findME_find? (fun d hd => workloadPred_shaped t_name (hshape d hd))
  unfold audit_hpa at h
  rw [hkind, ok_bind] at h
  rw [if_neg (show ¬((some (Yaml.str "HorizontalPodAutoscaler")
    != some (Yaml.str "HorizontalPodAutoscaler")) = true) from by decide)] at h
  rw [hspec, ok_bind, htgt, ok_bind, hnm, ok_bind, hcpu, ok_bind] at h
  dsimp only at h
  rw [hmy, ok_bind, hml, ok_bind] at h
  rw [hmetrics, ok_bind] at h
  rw [hfind, ok_bind] at h
  cases hw : all_docs.find? (resolvesWorkload t_name) with
  | none =>
    rw [hw] at h
    dsimp only at h
    have h2 := h
    injection h2 with h2
    refine ⟨fun _ => ?_, fun w containers hsome => absurd hsome (by simp)⟩
    rw [← h2]
    exact ⟨by show [upperStr "HPA_ORPHAN"] = ["HPA_ORPHAN"]; decide, rfl⟩
  | some w =>
    rw [hw] at h
    dsimp only at h
    refine ⟨fun hnone => absurd hnone (by simp), ?_⟩
    intro w2 containers hsome hcont hcs hms
    have hww : w = w2 := by injection hsome
    subst hww
    rw [hcont, ok_bind] at h
    rw [hpaPairsFindings_ok hms hcs] at h
    have h2 := h
    injection h2 with h2
    have hfs : fs = (metrics.eraseDups.map
        (fun metric => (containers.map (hpaPairPure metric)).join)).join := h2.symm
    refine ⟨hfs, ?_⟩
    intro fd hfd
    rw [hfs] at hfd
    obtain ⟨l1, hl1, hfd1⟩ := List.mem_join.mp hfd
    obtain ⟨metric, hmet, hml1⟩ := List.mem_map.mp hl1
    rw [← hml1] at hfd1
    obtain ⟨l2, hl2, hfd2⟩ := List.mem_join.mp hfd1
    obtain ⟨c, hcc, hml2⟩ := List.mem_map.mp hl2
    rw [← hml2] at hfd2
    exact hpaPairPure_mem hfd2


/-- C7 counterexample: the autoscaler sits in namespace a while the only
workload named web lives in namespace b, yet audit_hpa resolves the
target (emitting HPA_MISSING_REQ, not HPA_ORPHAN): resolution ignores
the namespace. -/
theorem c7_hpa_counterexample :
    c7hpa.getE "metadata" = .ok (some (.map [("name", .str "h"), ("namespace", .str "a")])) ∧
    c7dep.getE "metadata" = .ok (some (.map [("name", .str "web"), ("namespace", .str "b")])) ∧
    Except.map (List.map Finding.code) (audit_hpa c7hpa [c7dep])
      = .ok ["HPA_MISSING_REQ"] := by
  refine ⟨?_, ?_, ?_⟩ <;> decide

/-- C7 witness: the amended theorem applied to the concrete autoscaler
and Deployment, whose sole container lacks a cpu request. -/
theorem c7_hpa_amended_witness :
    audit_hpa c7hpa [c7dep] = Except.ok c7wFs ∧
    c7wFs = (([Yaml.str "cpu"].eraseDups).map
      (fun metric => ([c7container].map (hpaPairPure metric)).join)).join :=
  ⟨by decide,
    ((c7_hpa_amended c7hpa [c7dep]
      (.map [("scaleTargetRef", .map [("name", .str "web")]),
             ("targetCPUUtilizationPercentage", .int 80)])
      (.map [("name", .str "web")]) (some (.str "web")) (.int 80) (.arr [])
      [] [Yaml.str "cpu"] c7wFs
      (by decide) (by decide) (by decide) (by decide) (by decide) (by decide)
      (by decide) (by decide) (by decide) (by decide)).2 c7dep [c7container]
      (by decide) (by decide) (by decide) (by decide)).1⟩

end Kubecuro
